import Mathlib

/-!
Verification of the pdf-editor-ui detection/evaluation core.

The definitions below are shallow embeddings of the TypeScript source:

* the evaluator (`computeIoU`, `greedyMatch`, `calcMetrics`,
  `aggregateMetrics`, `flattenTruth`, `flattenPredictions`,
  `evaluateDetectorOutput`) from `src/components/PdfEditor.tsx`
  (the evaluation module concatenated into that file);
* the runtime raster-heuristics detector (`PDFFieldDetector` of
  `src/lib/detectors/rasterHeuristics`), embedded in namespace `Raster`;
* the legacy field-detection library (`PDFFieldDetector` of the older
  `lib/pdfFieldDetection` module), embedded in namespace `Legacy`.

JavaScript numbers are modelled as exact rationals; counts as naturals.
TypeScript interface names are kept except where Lean's surface rules
require a rename: `FieldAnnotation` is embedded as `FieldAnnot`,
`PageAnnotation` as `PageAnnot`, `DocumentAnnotation` as `DocumentAnnot`,
and the report field `macro` as `macroAgg`.
-/

namespace Ev

/- Core marks the rational-number operations irreducible; concrete runs of
the embedded code are evaluated by the kernel, so restore the default
transparency for them in this file. -/
attribute [local semireducible] Rat.add Rat.mul Rat.sub Rat.inv Rat.ofScientific

/-- The `FieldType` union of `src/types/form.ts`. -/
inductive FieldType where
  | text | multiline | checkbox | signature | radio | dropdown | listbox | button
  deriving DecidableEq, Repr

/-- `NormalizedRect` of `src/types/form.ts`: page-relative coordinates. -/
structure NormalizedRect where
  x : ℚ
  y : ℚ
  width : ℚ
  height : ℚ
  deriving DecidableEq, Repr

/-- `FieldAnnotation` of `benchmarks/detection/types.ts` (ground truth);
the optional `id`/`attributes` metadata plays no role in evaluation. -/
structure FieldAnnot where
  type : FieldType
  rect : NormalizedRect
  deriving DecidableEq, Repr

/-- `FieldPrediction` of `benchmarks/detection/types.ts`. -/
structure FieldPrediction where
  type : FieldType
  rect : NormalizedRect
  confidence : Option ℚ := none
  deriving DecidableEq, Repr

/-- `PageAnnotation` of `benchmarks/detection/types.ts`. -/
structure PageAnnot where
  pageIndex : ℤ
  fields : List FieldAnnot
  deriving DecidableEq, Repr

/-- `DocumentAnnotation` of `benchmarks/detection/types.ts`. -/
structure DocumentAnnot where
  documentId : String
  pages : List PageAnnot
  deriving DecidableEq, Repr

/-- `PagePrediction` of `benchmarks/detection/types.ts`. -/
structure PagePrediction where
  pageIndex : ℤ
  fields : List FieldPrediction
  deriving DecidableEq, Repr

/-- `DetectionOutput` of `benchmarks/detection/types.ts`; the free-form
`summary` record is not modelled (no claim touches it). -/
structure DetectionOutput where
  documentId : String
  pages : List PagePrediction
  deriving DecidableEq, Repr

/-- `Instance` of the evaluation module: a field together with its page. -/
structure Instance (α : Type) where
  pageIndex : ℤ
  field : α
  deriving DecidableEq, Repr

/-- `MatchRecord` of the evaluation module. -/
structure MatchRecord where
  type : FieldType
  pageIndex : ℤ
  truth : Instance FieldAnnot
  prediction : Instance FieldPrediction
  iou : ℚ
  deriving DecidableEq, Repr

/-- `TypeCounts` of the evaluation module. -/
structure TypeCounts where
  tp : ℕ
  fp : ℕ
  fn : ℕ
  deriving DecidableEq, Repr

/-- `TypeMetrics` of the evaluation module (`TypeCounts` plus rates). -/
structure TypeMetrics where
  tp : ℕ
  fp : ℕ
  fn : ℕ
  precision : ℚ
  recall' : ℚ
  f1 : ℚ
  deriving DecidableEq, Repr

/-- `AggregateMetrics` of the evaluation module. -/
structure AggregateMetrics where
  tp : ℕ
  fp : ℕ
  fn : ℕ
  precision : ℚ
  recall' : ℚ
  f1 : ℚ
  support : ℕ
  predicted : ℕ
  deriving DecidableEq, Repr

/-- `EvaluationReport` of the evaluation module. `perType` (a `Record`
keyed by field type) is embedded as an association list in the JS
iteration order of the active types; the source fields `macro`, `matches`
and `recall` are named `macroAgg`, `matches'` and `recall'` here (the
latter two collide with Lean keywords). -/
structure EvaluationReport where
  documentId : String
  threshold : ℚ
  perType : List (FieldType × TypeMetrics)
  micro : AggregateMetrics
  macroAgg : AggregateMetrics
  matches' : List MatchRecord
  falsePositives : List (Instance FieldPrediction)
  falseNegatives : List (Instance FieldAnnot)
  deriving DecidableEq, Repr

instance : Inhabited FieldType := ⟨.text⟩

instance : Inhabited NormalizedRect := ⟨⟨0, 0, 0, 0⟩⟩

instance : Inhabited FieldAnnot := ⟨⟨default, default⟩⟩

instance : Inhabited FieldPrediction := ⟨⟨default, default, none⟩⟩

instance : Inhabited (Instance FieldAnnot) := ⟨⟨0, default⟩⟩

instance : Inhabited (Instance FieldPrediction) := ⟨⟨0, default⟩⟩

/-- `clamp` of the evaluation module: `Number.isFinite(value) ? value : 0`.
On exact rationals every value is finite, so the guard is the identity. -/
def clamp (value : ℚ) : ℚ := value

/-- JS `Math.max` on two exact rationals (an executable synonym of `max`
that the kernel evaluates on concrete input). -/
def qmax (a b : ℚ) : ℚ := if a ≤ b then b else a

/-- JS `Math.min` on two exact rationals. -/
def qmin (a b : ℚ) : ℚ := if a ≤ b then a else b

lemma qmax_self (a : ℚ) : qmax a a = a := by simp [qmax]

lemma qmin_self (a : ℚ) : qmin a a = a := by simp [qmin]

lemma qmax_comm (a b : ℚ) : qmax a b = qmax b a := by
  unfold qmax
  split <;> split
  · rename_i h1 h2
    exact le_antisymm h2 h1
  · rfl
  · rfl
  · rename_i h1 h2
    exact le_antisymm (le_of_not_le h2) (le_of_not_le h1)

lemma qmin_comm (a b : ℚ) : qmin a b = qmin b a := by
  unfold qmin
  split <;> split
  · rename_i h1 h2
    exact le_antisymm h1 h2
  · rfl
  · rfl
  · rename_i h1 h2
    exact le_antisymm (le_of_not_le h1) (le_of_not_le h2)

lemma le_qmax_left (a b : ℚ) : a ≤ qmax a b := by
  unfold qmax
  split <;> linarith

lemma le_qmax_right (a b : ℚ) : b ≤ qmax a b := by
  unfold qmax
  split
  · exact le_refl b
  · rename_i h
    exact le_of_not_le h

lemma qmin_le_left (a b : ℚ) : qmin a b ≤ a := by
  unfold qmin
  split
  · exact le_refl a
  · rename_i h
    exact le_of_not_le h

lemma qmin_le_right (a b : ℚ) : qmin a b ≤ b := by
  unfold qmin
  split
  · assumption
  · exact le_refl b

/-- `computeIoU` of the evaluation module. -/
def computeIoU (a b : NormalizedRect) : ℚ :=
  let left := qmax a.x b.x
  let top := qmax a.y b.y
  let right := qmin (a.x + a.width) (b.x + b.width)
  let bottom := qmin (a.y + a.height) (b.y + b.height)
  if right ≤ left ∨ bottom ≤ top then 0
  else
    let intersection := (right - left) * (bottom - top)
    let areaA := a.width * a.height
    let areaB := b.width * b.height
    let union := areaA + areaB - intersection
    if union ≤ 0 then 0 else intersection / union


/-- `MatchRun` of the evaluation module (the result of one `greedyMatch`). -/
structure MatchRun where
  matches' : List MatchRecord
  falsePositives : List (Instance FieldPrediction)
  falseNegatives : List (Instance FieldAnnot)
  deriving DecidableEq, Repr

/-- One entry of the `candidates` array built inside `greedyMatch`. -/
structure Candidate where
  truthIndex : ℕ
  predictionIndex : ℕ
  iou : ℚ
  deriving DecidableEq, Repr

/-- The `candidates` array of `greedyMatch`: every same-page
(truth, prediction) pair whose IoU reaches the threshold, in the
enumeration order of the two nested `forEach` loops. -/
def candidatesOf (truths : List (Instance FieldAnnot))
    (predictions : List (Instance FieldPrediction)) (threshold : ℚ) :
    List Candidate :=
  truths.enum.flatMap fun tp =>
    predictions.enum.filterMap fun pp =>
      if tp.2.pageIndex = pp.2.pageIndex then
        let iou := computeIoU tp.2.field.rect pp.2.field.rect
        if iou ≥ threshold then some ⟨tp.1, pp.1, iou⟩ else none
      else none

/-- The `for (const candidate of candidates)` loop of `greedyMatch`:
accept a candidate when neither its truth index is in `matchedTruth`
(`mt`) nor its prediction index in `matchedPredictions` (`mp`), and mark
both as claimed.  Returns the accepted candidates in order. -/
def greedyAccept : List Candidate → List ℕ → List ℕ → List Candidate
  | [], _, _ => []
  | c :: rest, mt, mp =>
    if c.truthIndex ∈ mt ∨ c.predictionIndex ∈ mp then
      greedyAccept rest mt mp
    else
      c :: greedyAccept rest (c.truthIndex :: mt) (c.predictionIndex :: mp)

/-- Stable insertion step for the descending-IoU sort: a candidate is
placed before the first candidate of strictly smaller IoU, after all
candidates of equal IoU that preceded it. -/
def insertByIoU (c : Candidate) : List Candidate → List Candidate
  | [] => [c]
  | d :: rest => if d.iou < c.iou then c :: d :: rest else d :: insertByIoU c rest

/-- The JS `candidates.sort((a, b) => b.iou - a.iou)`: a stable sort by
IoU descending, embedded as stable insertion sort. -/
def sortByIoU : List Candidate → List Candidate
  | [] => []
  | c :: rest => insertByIoU c (sortByIoU rest)

/-- The candidates accepted by `greedyMatch` after sorting by IoU
descending. -/
def acceptedOf (truths : List (Instance FieldAnnot))
    (predictions : List (Instance FieldPrediction)) (threshold : ℚ) :
    List Candidate :=
  greedyAccept (sortByIoU (candidatesOf truths predictions threshold)) [] []

lemma insertByIoU_perm (c : Candidate) (l : List Candidate) :
    (insertByIoU c l).Perm (c :: l) := by
  induction l with
  | nil => simp [insertByIoU]
  | cons d rest ih =>
    rw [insertByIoU]
    split
    · exact List.Perm.refl _
    · exact (ih.cons d).trans (List.Perm.swap c d rest)

lemma sortByIoU_perm (l : List Candidate) : (sortByIoU l).Perm l := by
  induction l with
  | nil => simp [sortByIoU]
  | cons c rest ih =>
    exact (insertByIoU_perm c (sortByIoU rest)).trans (ih.cons c)

/-- `greedyMatch` of the evaluation module. Array indexing
`truths[candidate.truthIndex]` is embedded with `getD` (the source only
indexes with indices produced by `forEach`, which are always in range). -/
def greedyMatch (type : FieldType) (truths : List (Instance FieldAnnot))
    (predictions : List (Instance FieldPrediction)) (threshold : ℚ) :
    MatchRun :=
  let accepted := acceptedOf truths predictions threshold
  let matchedTruth := accepted.map (·.truthIndex)
  let matchedPredictions := accepted.map (·.predictionIndex)
  { matches' := accepted.map fun c =>
      let truthInstance := truths.getD c.truthIndex default
      let predictionInstance := predictions.getD c.predictionIndex default
      { type := type
        pageIndex := truthInstance.pageIndex
        truth := truthInstance
        prediction := predictionInstance
        iou := c.iou }
    falseNegatives :=
      (truths.enum.filter fun p => decide (p.1 ∉ matchedTruth)).map (·.2)
    falsePositives :=
      (predictions.enum.filter fun p => decide (p.1 ∉ matchedPredictions)).map (·.2) }

/-- `calcMetrics` of the evaluation module. -/
def calcMetrics (counts : TypeCounts) : TypeMetrics :=
  let precision : ℚ :=
    if counts.tp + counts.fp = 0 then 0
    else (counts.tp : ℚ) / ((counts.tp : ℚ) + (counts.fp : ℚ))
  let recallV : ℚ :=
    if counts.tp + counts.fn = 0 then 0
    else (counts.tp : ℚ) / ((counts.tp : ℚ) + (counts.fn : ℚ))
  let denom := precision + recallV
  let f1 : ℚ := if denom = 0 then 0 else 2 * precision * recallV / denom
  { tp := counts.tp, fp := counts.fp, fn := counts.fn
    precision := clamp precision
    recall' := clamp recallV
    f1 := clamp f1 }

/-- `metricsFromCounts` of the evaluation module. -/
def metricsFromCounts (counts : TypeCounts) : TypeMetrics := calcMetrics counts

/-- `aggregateMetrics` of the evaluation module. -/
def aggregateMetrics (counts : TypeCounts) : AggregateMetrics :=
  let metrics := calcMetrics counts
  { tp := counts.tp, fp := counts.fp, fn := counts.fn
    precision := metrics.precision
    recall' := metrics.recall'
    f1 := metrics.f1
    support := counts.tp + counts.fn
    predicted := counts.tp + counts.fp }

/-- `flattenTruth` of the evaluation module. -/
def flattenTruth (annot : Option DocumentAnnot) : List (Instance FieldAnnot) :=
  match annot with
  | none => []
  | some a => a.pages.flatMap fun page => page.fields.map fun f =>
      { pageIndex := page.pageIndex, field := f }

/-- `flattenPredictions` of the evaluation module. -/
def flattenPredictions (output : DetectionOutput) : List (Instance FieldPrediction) :=
  output.pages.flatMap fun page => page.fields.map fun f =>
    { pageIndex := page.pageIndex, field := f }

/-- One step of filling the `activeTypes` JS `Set` (insertion order,
skipping types already present). -/
def insertType (acc : List FieldType) (t : FieldType) : List FieldType :=
  if t ∈ acc then acc else acc ++ [t]

/-- The `activeTypes` set of `evaluateDetectorOutput`, in JS `Set`
iteration order: every truth type, then every prediction type, first
occurrence first. -/
def activeTypesOf (truths : List (Instance FieldAnnot))
    (predictions : List (Instance FieldPrediction)) : List FieldType :=
  (truths.map (·.field.type) ++ predictions.map (·.field.type)).foldl insertType []

/-- The `typeTruths` filter of `evaluateDetectorOutput`. -/
def truthsOfType (truths : List (Instance FieldAnnot)) (t : FieldType) :
    List (Instance FieldAnnot) :=
  truths.filter fun i => decide (i.field.type = t)

/-- The `typePredictions` filter of `evaluateDetectorOutput`. -/
def predictionsOfType (predictions : List (Instance FieldPrediction)) (t : FieldType) :
    List (Instance FieldPrediction) :=
  predictions.filter fun i => decide (i.field.type = t)

/-- The `typeRun` of `evaluateDetectorOutput` for one active type. -/
def typeRunOf (truths : List (Instance FieldAnnot))
    (predictions : List (Instance FieldPrediction)) (threshold : ℚ)
    (t : FieldType) : MatchRun :=
  greedyMatch t (truthsOfType truths t) (predictionsOfType predictions t) threshold

/-- The per-type `counts` record of `evaluateDetectorOutput`. -/
def countsOf (truths : List (Instance FieldAnnot))
    (predictions : List (Instance FieldPrediction)) (threshold : ℚ)
    (t : FieldType) : TypeCounts :=
  let typeRun := typeRunOf truths predictions threshold t
  { tp := typeRun.matches'.length
    fp := typeRun.falsePositives.length
    fn := typeRun.falseNegatives.length }

/-- `evaluateDetectorOutput` of the evaluation module.  The source's
single `for (const type of activeTypes)` loop accumulates per-type match
lists and count/precision sums; the loop is embedded as maps and sums
over `activeTypesOf` (the loop's iteration order). -/
def evaluateDetectorOutput (annot : Option DocumentAnnot)
    (detections : DetectionOutput) (threshold : ℚ := 1/2) : EvaluationReport :=
  let truths := flattenTruth annot
  let predictions := flattenPredictions detections
  let activeTypes := activeTypesOf truths predictions
  let counts := countsOf truths predictions threshold
  let microCounts : TypeCounts :=
    { tp := (activeTypes.map fun t => (counts t).tp).sum
      fp := (activeTypes.map fun t => (counts t).fp).sum
      fn := (activeTypes.map fun t => (counts t).fn).sum }
  let macroPrecision := (activeTypes.map fun t => (calcMetrics (counts t)).precision).sum
  let macroRecall := (activeTypes.map fun t => (calcMetrics (counts t)).recall').sum
  let macroF1 := (activeTypes.map fun t => (calcMetrics (counts t)).f1).sum
  let macroTypes := activeTypes.length
  let macroDenominator : ℚ := if macroTypes = 0 then 1 else (macroTypes : ℚ)
  { documentId := detections.documentId
    threshold := threshold
    perType := activeTypes.map fun t => (t, calcMetrics (counts t))
    micro := aggregateMetrics microCounts
    macroAgg :=
      { tp := microCounts.tp, fp := microCounts.fp, fn := microCounts.fn
        precision := if macroTypes = 0 then 0 else macroPrecision / macroDenominator
        recall' := if macroTypes = 0 then 0 else macroRecall / macroDenominator
        f1 := if macroTypes = 0 then 0 else macroF1 / macroDenominator
        support := truths.length
        predicted := predictions.length }
    matches' := activeTypes.flatMap fun t => (typeRunOf truths predictions threshold t).matches'
    falsePositives := activeTypes.flatMap fun t => (typeRunOf truths predictions threshold t).falsePositives
    falseNegatives := activeTypes.flatMap fun t => (typeRunOf truths predictions threshold t).falseNegatives }


/-- Two rectangles are disjoint: they share no interior point (one lies
entirely at or beyond the other's edge on some axis). -/
def rectDisjoint (a b : NormalizedRect) : Prop :=
  a.x + a.width ≤ b.x ∨ b.x + b.width ≤ a.x ∨
  a.y + a.height ≤ b.y ∨ b.y + b.height ≤ a.y

theorem computeIoU_self (a : NormalizedRect) (hw : 0 < a.width)
    (hh : 0 < a.height) : computeIoU a a = 1 := by
  simp only [computeIoU, qmax_self, qmin_self]
  have h1 : ¬(a.x + a.width ≤ a.x ∨ a.y + a.height ≤ a.y) := by
    push_neg
    constructor <;> linarith
  rw [if_neg h1]
  have h2 : (a.x + a.width - a.x) * (a.y + a.height - a.y) = a.width * a.height := by
    ring
  rw [h2]
  have h3 : a.width * a.height + a.width * a.height - a.width * a.height
      = a.width * a.height := by ring
  rw [h3]
  have h4 : 0 < a.width * a.height := mul_pos hw hh
  rw [if_neg (not_le.mpr h4)]
  exact div_self (ne_of_gt h4)

theorem computeIoU_disjoint (a b : NormalizedRect) (h : rectDisjoint a b) :
    computeIoU a b = 0 := by
  simp only [computeIoU]
  have hcond : qmin (a.x + a.width) (b.x + b.width) ≤ qmax a.x b.x ∨
      qmin (a.y + a.height) (b.y + b.height) ≤ qmax a.y b.y := by
    rcases h with h | h | h | h
    · exact Or.inl (le_trans (qmin_le_left _ _) (le_trans h (le_qmax_right _ _)))
    · exact Or.inl (le_trans (qmin_le_right _ _) (le_trans h (le_qmax_left _ _)))
    · exact Or.inr (le_trans (qmin_le_left _ _) (le_trans h (le_qmax_right _ _)))
    · exact Or.inr (le_trans (qmin_le_right _ _) (le_trans h (le_qmax_left _ _)))
  rw [if_pos hcond]

theorem computeIoU_comm (a b : NormalizedRect) :
    computeIoU a b = computeIoU b a := by
  simp only [computeIoU]
  rw [qmax_comm a.x b.x, qmax_comm a.y b.y, qmin_comm (a.x + a.width) (b.x + b.width),
    qmin_comm (a.y + a.height) (b.y + b.height),
    add_comm (a.width * a.height) (b.width * b.height)]


lemma greedyAccept_sublist (cs : List Candidate) (mt mp : List ℕ) :
    (greedyAccept cs mt mp).Sublist cs := by
  induction cs generalizing mt mp with
  | nil => simp [greedyAccept]
  | cons c rest ih =>
    rw [greedyAccept]
    split
    · exact (ih mt mp).trans (List.sublist_cons_self c rest)
    · exact (ih _ _).cons₂ c

lemma greedyAccept_not_claimed (cs : List Candidate) (mt mp : List ℕ) :
    ∀ c ∈ greedyAccept cs mt mp, c.truthIndex ∉ mt ∧ c.predictionIndex ∉ mp := by
  induction cs generalizing mt mp with
  | nil => simp [greedyAccept]
  | cons c rest ih =>
    rw [greedyAccept]
    split
    · exact ih mt mp
    · rename_i hnot
      push_neg at hnot
      intro d hd
      rcases List.mem_cons.mp hd with rfl | hd
      · exact hnot
      · have := ih _ _ d hd
        exact ⟨fun hm => this.1 (List.mem_cons_of_mem _ hm),
               fun hm => this.2 (List.mem_cons_of_mem _ hm)⟩

lemma greedyAccept_pairwise (cs : List Candidate) (mt mp : List ℕ) :
    (greedyAccept cs mt mp).Pairwise
      (fun a b => a.truthIndex ≠ b.truthIndex ∧ a.predictionIndex ≠ b.predictionIndex) := by
  induction cs generalizing mt mp with
  | nil => simp [greedyAccept]
  | cons c rest ih =>
    rw [greedyAccept]
    split
    · exact ih mt mp
    · refine List.Pairwise.cons ?_ (ih _ _)
      intro b hb
      have hne := greedyAccept_not_claimed rest _ _ b hb
      exact ⟨fun h => hne.1 (h ▸ List.mem_cons_self _ _),
             fun h => hne.2 (h ▸ List.mem_cons_self _ _)⟩

lemma candidatesOf_bounds (truths : List (Instance FieldAnnot))
    (predictions : List (Instance FieldPrediction)) (threshold : ℚ) :
    ∀ c ∈ candidatesOf truths predictions threshold,
      c.truthIndex < truths.length ∧ c.predictionIndex < predictions.length := by
  intro c hc
  simp only [candidatesOf, List.mem_flatMap, List.mem_filterMap] at hc
  obtain ⟨tp, htp, pp, hpp, heq⟩ := hc
  have ht := List.mem_enum (x := tp.2) (i := tp.1) (by simpa using htp)
  have hp := List.mem_enum (x := pp.2) (i := pp.1) (by simpa using hpp)
  split at heq
  · split at heq
    · cases heq
      exact ⟨ht.1, hp.1⟩
    · cases heq
  · cases heq

lemma acceptedOf_mem_bounds (truths : List (Instance FieldAnnot))
    (predictions : List (Instance FieldPrediction)) (threshold : ℚ) :
    ∀ c ∈ acceptedOf truths predictions threshold,
      c.truthIndex < truths.length ∧ c.predictionIndex < predictions.length := by
  intro c hc
  have h1 : c ∈ sortByIoU (candidatesOf truths predictions threshold) :=
    (greedyAccept_sublist _ _ _).mem hc
  have h2 : c ∈ candidatesOf truths predictions threshold :=
    (sortByIoU_perm _).mem_iff.mp h1
  exact candidatesOf_bounds truths predictions threshold c h2

lemma countP_range_mem (n : ℕ) (mt : List ℕ) (hnd : mt.Nodup)
    (hlt : ∀ i ∈ mt, i < n) :
    ((List.range n).filter fun i => decide (i ∈ mt)).length = mt.length := by
  have hperm : ((List.range n).filter fun i => decide (i ∈ mt)).Perm mt := by
    apply List.perm_of_nodup_nodup_toFinset_eq
    · exact (List.nodup_range n).filter _
    · exact hnd
    · ext i
      simp only [List.mem_toFinset, List.mem_filter, List.mem_range, decide_eq_true_eq]
      exact ⟨fun h => h.2, fun h => ⟨hlt i h, h⟩⟩
  exact hperm.length_eq

lemma filter_enum_count {α : Type} (l : List α) (mt : List ℕ) (hnd : mt.Nodup)
    (hlt : ∀ i ∈ mt, i < l.length) :
    ((l.enum.filter fun p => decide (p.1 ∉ mt)).map Prod.snd).length + mt.length
      = l.length := by
  rw [List.length_map, ← List.countP_eq_length_filter]
  have hmap : List.countP (fun p => decide (p.1 ∉ mt)) l.enum
      = List.countP (fun i => decide (i ∉ mt)) (List.map Prod.fst l.enum) := by
    rw [List.countP_map]
    rfl
  rw [hmap, List.enum_map_fst]
  have hfun : (fun i => decide (i ∉ mt)) = fun i => !(decide (i ∈ mt)) := by
    funext i
    exact decide_not
  have hsplit := (List.filter_append_perm (fun i => decide (i ∈ mt))
    (List.range l.length)).length_eq
  rw [List.length_append, List.length_range, countP_range_mem l.length mt hnd hlt] at hsplit
  rw [List.countP_eq_length_filter, hfun]
  omega


lemma acceptedOf_pairwise (truths : List (Instance FieldAnnot))
    (predictions : List (Instance FieldPrediction)) (threshold : ℚ) :
    (acceptedOf truths predictions threshold).Pairwise
      (fun a b => a.truthIndex ≠ b.truthIndex ∧ a.predictionIndex ≠ b.predictionIndex) :=
  greedyAccept_pairwise _ [] []

lemma greedyMatch_truth_count (type : FieldType)
    (truths : List (Instance FieldAnnot))
    (predictions : List (Instance FieldPrediction)) (threshold : ℚ) :
    (greedyMatch type truths predictions threshold).matches'.length
      + (greedyMatch type truths predictions threshold).falseNegatives.length
      = truths.length := by
  simp only [greedyMatch]
  simp only [List.length_map]
  have hnd : (List.map (fun c => c.truthIndex)
      (acceptedOf truths predictions threshold)).Nodup := by
    refine List.Pairwise.map _ ?_ (acceptedOf_pairwise truths predictions threshold)
    intro a b hab
    exact hab.1
  have hlt : ∀ i ∈ List.map (fun c => c.truthIndex)
      (acceptedOf truths predictions threshold), i < truths.length := by
    intro i hi
    obtain ⟨c, hc, rfl⟩ := List.mem_map.mp hi
    exact (acceptedOf_mem_bounds truths predictions threshold c hc).1
  have h := filter_enum_count truths
    (List.map (fun c => c.truthIndex) (acceptedOf truths predictions threshold)) hnd hlt
  simp only [List.length_map] at h
  omega

lemma greedyMatch_prediction_count (type : FieldType)
    (truths : List (Instance FieldAnnot))
    (predictions : List (Instance FieldPrediction)) (threshold : ℚ) :
    (greedyMatch type truths predictions threshold).matches'.length
      + (greedyMatch type truths predictions threshold).falsePositives.length
      = predictions.length := by
  simp only [greedyMatch]
  simp only [List.length_map]
  have hnd : (List.map (fun c => c.predictionIndex)
      (acceptedOf truths predictions threshold)).Nodup := by
    refine List.Pairwise.map _ ?_ (acceptedOf_pairwise truths predictions threshold)
    intro a b hab
    exact hab.2
  have hlt : ∀ i ∈ List.map (fun c => c.predictionIndex)
      (acceptedOf truths predictions threshold), i < predictions.length := by
    intro i hi
    obtain ⟨c, hc, rfl⟩ := List.mem_map.mp hi
    exact (acceptedOf_mem_bounds truths predictions threshold c hc).2
  have h := filter_enum_count predictions
    (List.map (fun c => c.predictionIndex) (acceptedOf truths predictions threshold)) hnd hlt
  simp only [List.length_map] at h
  omega


/-- Claim C1: for every field type, truth list, prediction list and IoU
threshold, `greedyMatch` never assigns the same truth index or the same
prediction index to two accepted candidates (its `matches'` list is built
index-for-index from `acceptedOf`), and the result satisfies
`matches.length + falseNegatives.length = truths.length` and
`matches.length + falsePositives.length = predictions.length`. -/
theorem greedyMatch_injective_partition (type : FieldType)
    (truths : List (Instance FieldAnnot))
    (predictions : List (Instance FieldPrediction)) (threshold : ℚ) :
    ((greedyMatch type truths predictions threshold).matches'
      = (acceptedOf truths predictions threshold).map fun c =>
          { type := type
            pageIndex := (truths.getD c.truthIndex default).pageIndex
            truth := truths.getD c.truthIndex default
            prediction := predictions.getD c.predictionIndex default
            iou := c.iou }) ∧
    (acceptedOf truths predictions threshold).Pairwise
      (fun a b => a.truthIndex ≠ b.truthIndex ∧ a.predictionIndex ≠ b.predictionIndex) ∧
    (greedyMatch type truths predictions threshold).matches'.length
      + (greedyMatch type truths predictions threshold).falseNegatives.length
      = truths.length ∧
    (greedyMatch type truths predictions threshold).matches'.length
      + (greedyMatch type truths predictions threshold).falsePositives.length
      = predictions.length :=
  ⟨rfl,
   acceptedOf_pairwise truths predictions threshold,
   greedyMatch_truth_count type truths predictions threshold,
   greedyMatch_prediction_count type truths predictions threshold⟩

/-- Claim C3: `computeIoU` is `1` on any rectangle with positive width and
height paired with itself, `0` on disjoint rectangles, and symmetric. -/
theorem computeIoU_identity_disjoint_symm :
    (∀ a : NormalizedRect, 0 < a.width → 0 < a.height → computeIoU a a = 1) ∧
    (∀ a b : NormalizedRect, rectDisjoint a b → computeIoU a b = 0) ∧
    (∀ a b : NormalizedRect, computeIoU a b = computeIoU b a) :=
  ⟨computeIoU_self, computeIoU_disjoint, computeIoU_comm⟩

/-- Witness for claim C3: the three properties instantiated on the unit
square and a disjoint translate of it. -/
theorem computeIoU_identity_disjoint_symm_witness :
    computeIoU ⟨0, 0, 1, 1⟩ ⟨0, 0, 1, 1⟩ = 1 ∧
    computeIoU ⟨0, 0, 1, 1⟩ ⟨2, 3, 1, 1⟩ = 0 ∧
    computeIoU ⟨0, 0, 1, 1⟩ ⟨2, 3, 1, 1⟩ = computeIoU ⟨2, 3, 1, 1⟩ ⟨0, 0, 1, 1⟩ :=
  ⟨computeIoU_identity_disjoint_symm.1 ⟨0, 0, 1, 1⟩ (by norm_num) (by norm_num),
   computeIoU_identity_disjoint_symm.2.1 ⟨0, 0, 1, 1⟩ ⟨2, 3, 1, 1⟩
     (Or.inl (by norm_num)),
   computeIoU_identity_disjoint_symm.2.2 ⟨0, 0, 1, 1⟩ ⟨2, 3, 1, 1⟩⟩


/-- The synthetic ground-truth document of
`benchmarks/detection/evaluate_smoke.ts`. -/
def syntheticTruth : DocumentAnnot where
  documentId := "synthetic"
  pages :=
    [ { pageIndex := 0
        fields :=
          [ { type := .text, rect := ⟨0.1, 0.2, 0.3, 0.05⟩ },
            { type := .checkbox, rect := ⟨0.6, 0.4, 0.05, 0.05⟩ } ] } ]

/-- The synthetic detections document of
`benchmarks/detection/evaluate_smoke.ts`. -/
def syntheticDetections : DetectionOutput where
  documentId := "synthetic"
  pages :=
    [ { pageIndex := 0
        fields :=
          [ { type := .text, rect := ⟨0.105, 0.205, 0.29, 0.055⟩, confidence := some 0.8 },
            { type := .text, rect := ⟨0.5, 0.5, 0.1, 0.05⟩, confidence := some 0.4 } ] } ]

/-- Claim C2: on the synthetic smoke-test input, `evaluateDetectorOutput`
at threshold `0.5` matches the high-overlap text prediction to the text
truth (their IoU is `261/358 ≈ 0.729`), reports the checkbox truth as the
only false negative and the low-overlap text prediction as the only false
positive, and yields micro precision, recall and F1 of `1/2`. -/
theorem evaluateDetectorOutput_smoke :
    (evaluateDetectorOutput (some syntheticTruth) syntheticDetections (1/2)).matches' =
      [ { type := .text
          pageIndex := 0
          truth := ⟨0, { type := .text, rect := ⟨0.1, 0.2, 0.3, 0.05⟩ }⟩
          prediction := ⟨0, { type := .text, rect := ⟨0.105, 0.205, 0.29, 0.055⟩, confidence := some 0.8 }⟩
          iou := 261/358 } ] ∧
    (evaluateDetectorOutput (some syntheticTruth) syntheticDetections (1/2)).falseNegatives =
      [⟨0, { type := .checkbox, rect := ⟨0.6, 0.4, 0.05, 0.05⟩ }⟩] ∧
    (evaluateDetectorOutput (some syntheticTruth) syntheticDetections (1/2)).falsePositives =
      [⟨0, { type := .text, rect := ⟨0.5, 0.5, 0.1, 0.05⟩, confidence := some 0.4 }⟩] ∧
    (evaluateDetectorOutput (some syntheticTruth) syntheticDetections (1/2)).micro.precision = 1/2 ∧
    (evaluateDetectorOutput (some syntheticTruth) syntheticDetections (1/2)).micro.recall' = 1/2 ∧
    (evaluateDetectorOutput (some syntheticTruth) syntheticDetections (1/2)).micro.f1 = 1/2 := by
  decide


lemma insertType_mem (acc : List FieldType) (t a : FieldType) :
    a ∈ insertType acc t ↔ a ∈ acc ∨ a = t := by
  unfold insertType
  split
  · rename_i h
    constructor
    · exact fun ha => Or.inl ha
    · rintro (ha | rfl)
      · exact ha
      · exact h
  · simp [List.mem_append]

lemma foldl_insertType_mem_acc (l : List FieldType) (acc : List FieldType)
    (a : FieldType) (ha : a ∈ acc) : a ∈ l.foldl insertType acc := by
  induction l generalizing acc with
  | nil => exact ha
  | cons t rest ih =>
    exact ih (insertType acc t) ((insertType_mem acc t a).mpr (Or.inl ha))

lemma foldl_insertType_mem (l : List FieldType) (acc : List FieldType)
    (a : FieldType) (ha : a ∈ l) : a ∈ l.foldl insertType acc := by
  induction l generalizing acc with
  | nil => cases ha
  | cons t rest ih =>
    rcases List.mem_cons.mp ha with rfl | ha
    · exact foldl_insertType_mem_acc rest _ a ((insertType_mem acc a a).mpr (Or.inr rfl))
    · exact ih (insertType acc t) ha

lemma insertType_nodup (acc : List FieldType) (t : FieldType) (h : acc.Nodup) :
    (insertType acc t).Nodup := by
  unfold insertType
  split
  · exact h
  · rename_i ht
    simpa [List.nodup_append] using ⟨h, fun ha => ht ha⟩

lemma foldl_insertType_nodup (l : List FieldType) (acc : List FieldType)
    (h : acc.Nodup) : (l.foldl insertType acc).Nodup := by
  induction l generalizing acc with
  | nil => exact h
  | cons t rest ih => exact ih _ (insertType_nodup acc t h)

lemma activeTypesOf_nodup (truths : List (Instance FieldAnnot))
    (predictions : List (Instance FieldPrediction)) :
    (activeTypesOf truths predictions).Nodup :=
  foldl_insertType_nodup _ [] List.nodup_nil

lemma truth_type_mem_activeTypesOf (truths : List (Instance FieldAnnot))
    (predictions : List (Instance FieldPrediction)) (i : Instance FieldAnnot)
    (hi : i ∈ truths) : i.field.type ∈ activeTypesOf truths predictions := by
  apply foldl_insertType_mem
  exact List.mem_append_left _ (List.mem_map_of_mem _ hi)

lemma prediction_type_mem_activeTypesOf (truths : List (Instance FieldAnnot))
    (predictions : List (Instance FieldPrediction)) (i : Instance FieldPrediction)
    (hi : i ∈ predictions) : i.field.type ∈ activeTypesOf truths predictions := by
  apply foldl_insertType_mem
  exact List.mem_append_right _ (List.mem_map_of_mem _ hi)

lemma flatMap_congr_mem {α β : Type} {l : List α} {f g : α → List β}
    (h : ∀ a ∈ l, f a = g a) : l.flatMap f = l.flatMap g := by
  induction l with
  | nil => rfl
  | cons a rest ih =>
    simp only [List.flatMap_cons]
    rw [h a (List.mem_cons_self a rest), ih fun b hb => h b (List.mem_cons_of_mem a hb)]

/-- Partitioning a list by the (distinct, covering) values of a key
function and concatenating the parts permutes the list. -/
lemma flatMap_filter_key_perm {α β : Type} [DecidableEq β] (f : α → β) :
    ∀ (ts : List β) (l : List α), ts.Nodup → (∀ x ∈ l, f x ∈ ts) →
      (ts.flatMap fun t => l.filter fun x => decide (f x = t)).Perm l := by
  intro ts
  induction ts with
  | nil =>
    intro l _ hcov
    have : l = [] := List.eq_nil_iff_forall_not_mem.mpr fun x hx => by
      simpa using hcov x hx
    simp [this]
  | cons t ts ih =>
    intro l hnd hcov
    have hnotmem : t ∉ ts := (List.nodup_cons.mp hnd).1
    have hndts : ts.Nodup := (List.nodup_cons.mp hnd).2
    simp only [List.flatMap_cons]
    set l' := l.filter fun x => !decide (f x = t) with hl'
    have hcov' : ∀ x ∈ l', f x ∈ ts := by
      intro x hx
      have hmem := List.mem_filter.mp hx
      have hne : f x ≠ t := by simpa using hmem.2
      rcases List.mem_cons.mp (hcov x hmem.1) with h | h
      · exact absurd h hne
      · exact h
    have hcong : ts.flatMap (fun u => l.filter fun x => decide (f x = u))
        = ts.flatMap (fun u => l'.filter fun x => decide (f x = u)) := by
      apply flatMap_congr_mem
      intro u hu
      have hne : u ≠ t := fun h => hnotmem (h ▸ hu)
      rw [hl', List.filter_filter]
      apply List.filter_congr
      intro x _
      by_cases hx : f x = u
      · have hxt : f x ≠ t := by
          rw [hx]
          exact hne
        simp [hx, hxt, hne]
      · simp [hx]
    rw [hcong]
    have hperm := ih l' hndts hcov'
    have h2 : ((l.filter fun x => decide (f x = t))
        ++ ts.flatMap fun u => l'.filter fun x => decide (f x = u)).Perm
        ((l.filter fun x => decide (f x = t)) ++ l') := hperm.append_left _
    have h3 : ((l.filter fun x => decide (f x = t)) ++ l').Perm l := by
      rw [hl']
      exact List.filter_append_perm _ l
    exact h2.trans h3


lemma greedyMatch_nil_truths (type : FieldType)
    (predictions : List (Instance FieldPrediction)) (threshold : ℚ) :
    (greedyMatch type [] predictions threshold).matches' = [] ∧
    (greedyMatch type [] predictions threshold).falseNegatives = [] ∧
    (greedyMatch type [] predictions threshold).falsePositives = predictions := by
  have hacc : acceptedOf [] predictions threshold = [] := rfl
  refine ⟨?_, ?_, ?_⟩
  · simp [greedyMatch, hacc]
  · simp [greedyMatch, hacc]
  · simp only [greedyMatch, hacc, List.map_nil]
    have : (predictions.enum.filter fun p => decide (p.1 ∉ ([] : List ℕ)))
        = predictions.enum := by
      apply List.filter_eq_self.mpr
      intro p _
      simp
    rw [this, List.enum_map_snd]

lemma countsOf_nil_truths (predictions : List (Instance FieldPrediction))
    (threshold : ℚ) (t : FieldType) :
    countsOf [] predictions threshold t
      = ⟨0, (predictionsOfType predictions t).length, 0⟩ := by
  have h := greedyMatch_nil_truths t (predictionsOfType predictions t) threshold
  have htr : truthsOfType [] t = [] := rfl
  simp [countsOf, typeRunOf, htr, h.1, h.2.1, h.2.2]

lemma calcMetrics_tp_zero_fn_zero (fp : ℕ) :
    (calcMetrics ⟨0, fp, 0⟩).precision = 0 ∧ (calcMetrics ⟨0, fp, 0⟩).recall' = 0 := by
  unfold calcMetrics clamp
  constructor
  · dsimp only
    split
    · rfl
    · simp
  · simp

lemma calcMetrics_guards (counts : TypeCounts) :
    (counts.tp + counts.fp = 0 → (calcMetrics counts).precision = 0) ∧
    (counts.tp + counts.fn = 0 → (calcMetrics counts).recall' = 0) ∧
    ((calcMetrics counts).precision + (calcMetrics counts).recall' = 0 →
      (calcMetrics counts).f1 = 0) := by
  unfold calcMetrics clamp
  dsimp only
  refine ⟨fun h => ?_, fun h => ?_, fun h => ?_⟩
  · rw [if_pos h]
  · rw [if_pos h]
  · rw [if_pos h]

lemma evaluateDetectorOutput_none_matches (detections : DetectionOutput)
    (threshold : ℚ) :
    (evaluateDetectorOutput none detections threshold).matches' = [] := by
  simp only [evaluateDetectorOutput, flattenTruth]
  have : ∀ t ∈ activeTypesOf [] (flattenPredictions detections),
      (typeRunOf [] (flattenPredictions detections) threshold t).matches' = [] := by
    intro t _
    exact (greedyMatch_nil_truths t _ threshold).1
  rw [flatMap_congr_mem this]
  simp

lemma evaluateDetectorOutput_none_fp_perm (detections : DetectionOutput)
    (threshold : ℚ) :
    ((evaluateDetectorOutput none detections threshold).falsePositives).Perm
      (flattenPredictions detections) := by
  simp only [evaluateDetectorOutput, flattenTruth]
  have hcong : ∀ t ∈ activeTypesOf [] (flattenPredictions detections),
      (typeRunOf [] (flattenPredictions detections) threshold t).falsePositives
        = (flattenPredictions detections).filter fun i => decide (i.field.type = t) := by
    intro t _
    exact (greedyMatch_nil_truths t _ threshold).2.2
  rw [flatMap_congr_mem hcong]
  exact flatMap_filter_key_perm (fun i => i.field.type) _ _
    (activeTypesOf_nodup [] _)
    (fun i hi => prediction_type_mem_activeTypesOf [] _ i hi)

lemma evaluateDetectorOutput_none_perType (detections : DetectionOutput)
    (threshold : ℚ) :
    ∀ p ∈ (evaluateDetectorOutput none detections threshold).perType,
      p.2.precision = 0 ∧ p.2.recall' = 0 := by
  intro p hp
  simp only [evaluateDetectorOutput, flattenTruth, List.mem_map] at hp
  obtain ⟨t, _, rfl⟩ := hp
  rw [countsOf_nil_truths]
  exact calcMetrics_tp_zero_fn_zero _

/-- Claim C4: the metric computation is division-by-zero safe (`precision`
is `0` when `tp + fp = 0`, `recall` is `0` when `tp + fn = 0`, `f1` is `0`
when `precision + recall = 0` — on exact rationals no NaN/Infinity can
arise), and with an absent truth document every prediction instance
becomes a false positive while every per-type entry reports precision `0`
and recall `0`. -/
theorem calcMetrics_guarded_and_null_truth_all_fp :
    (∀ counts : TypeCounts,
      (counts.tp + counts.fp = 0 → (calcMetrics counts).precision = 0) ∧
      (counts.tp + counts.fn = 0 → (calcMetrics counts).recall' = 0) ∧
      ((calcMetrics counts).precision + (calcMetrics counts).recall' = 0 →
        (calcMetrics counts).f1 = 0)) ∧
    (∀ (detections : DetectionOutput) (threshold : ℚ),
      (evaluateDetectorOutput none detections threshold).matches' = [] ∧
      ((evaluateDetectorOutput none detections threshold).falsePositives).Perm
        (flattenPredictions detections) ∧
      (∀ p ∈ (evaluateDetectorOutput none detections threshold).perType,
        p.2.precision = 0 ∧ p.2.recall' = 0)) :=
  ⟨calcMetrics_guards,
   fun detections threshold =>
     ⟨evaluateDetectorOutput_none_matches detections threshold,
      evaluateDetectorOutput_none_fp_perm detections threshold,
      evaluateDetectorOutput_none_perType detections threshold⟩⟩

/-- Witness for claim C4: the guards at the all-zero counts, and the
null-truth evaluation of the synthetic detections document. -/
theorem calcMetrics_guarded_and_null_truth_all_fp_witness :
    ((calcMetrics ⟨0, 0, 0⟩).precision = 0 ∧ (calcMetrics ⟨0, 0, 0⟩).recall' = 0 ∧
      (calcMetrics ⟨0, 0, 0⟩).f1 = 0) ∧
    (evaluateDetectorOutput none syntheticDetections (1/2)).matches' = [] ∧
    ((evaluateDetectorOutput none syntheticDetections (1/2)).falsePositives).Perm
      (flattenPredictions syntheticDetections) ∧
    ((Ev.FieldType.text, calcMetrics ⟨0, 2, 0⟩) ∈
        (evaluateDetectorOutput none syntheticDetections (1/2)).perType ∧
      (calcMetrics ⟨0, 2, 0⟩).precision = 0 ∧ (calcMetrics ⟨0, 2, 0⟩).recall' = 0) := by
  have h := calcMetrics_guarded_and_null_truth_all_fp
  have hmem : (Ev.FieldType.text, calcMetrics ⟨0, 2, 0⟩) ∈
      (evaluateDetectorOutput none syntheticDetections (1/2)).perType := by decide
  refine ⟨⟨(h.1 ⟨0, 0, 0⟩).1 (by decide), (h.1 ⟨0, 0, 0⟩).2.1 (by decide), ?_⟩,
    (h.2 syntheticDetections (1/2)).1, (h.2 syntheticDetections (1/2)).2.1,
    hmem, (h.2 syntheticDetections (1/2)).2.2 _ hmem⟩
  refine (h.1 ⟨0, 0, 0⟩).2.2 ?_
  rw [((h.1 ⟨0, 0, 0⟩).1 (by decide) : (calcMetrics ⟨0, 0, 0⟩).precision = 0),
    ((h.1 ⟨0, 0, 0⟩).2.1 (by decide) : (calcMetrics ⟨0, 0, 0⟩).recall' = 0)]
  norm_num


lemma sum_truthsOfType_lengths (truths : List (Instance FieldAnnot))
    (predictions : List (Instance FieldPrediction)) :
    ((activeTypesOf truths predictions).map
      fun t => (truthsOfType truths t).length).sum = truths.length := by
  have hperm := flatMap_filter_key_perm (fun i : Instance FieldAnnot => i.field.type)
    (activeTypesOf truths predictions) truths
    (activeTypesOf_nodup truths predictions)
    (fun i hi => truth_type_mem_activeTypesOf truths predictions i hi)
  have hlen := hperm.length_eq
  rw [List.length_flatMap] at hlen
  simpa [truthsOfType, Function.comp_def] using hlen

lemma sum_predictionsOfType_lengths (truths : List (Instance FieldAnnot))
    (predictions : List (Instance FieldPrediction)) :
    ((activeTypesOf truths predictions).map
      fun t => (predictionsOfType predictions t).length).sum = predictions.length := by
  have hperm := flatMap_filter_key_perm (fun i : Instance FieldPrediction => i.field.type)
    (activeTypesOf truths predictions) predictions
    (activeTypesOf_nodup truths predictions)
    (fun i hi => prediction_type_mem_activeTypesOf truths predictions i hi)
  have hlen := hperm.length_eq
  rw [List.length_flatMap] at hlen
  simpa [predictionsOfType, Function.comp_def] using hlen

/-- Claim C10: in every report `micro.tp/fp/fn` are exactly the lengths of
the `matches`/`falsePositives`/`falseNegatives` lists, `micro.support`
and `micro.predicted` are the total numbers of truth and prediction
instances, the macro aggregate carries the same raw counts as the micro
aggregate, and (when at least one type is active) its precision, recall
and F1 are the unweighted means of the per-type metrics. -/
theorem evaluateDetectorOutput_aggregate_invariants (annot : Option DocumentAnnot)
    (detections : DetectionOutput) (threshold : ℚ) :
    (evaluateDetectorOutput annot detections threshold).micro.tp
      = (evaluateDetectorOutput annot detections threshold).matches'.length ∧
    (evaluateDetectorOutput annot detections threshold).micro.fp
      = (evaluateDetectorOutput annot detections threshold).falsePositives.length ∧
    (evaluateDetectorOutput annot detections threshold).micro.fn
      = (evaluateDetectorOutput annot detections threshold).falseNegatives.length ∧
    (evaluateDetectorOutput annot detections threshold).micro.support
      = (flattenTruth annot).length ∧
    (evaluateDetectorOutput annot detections threshold).micro.predicted
      = (flattenPredictions detections).length ∧
    (evaluateDetectorOutput annot detections threshold).macroAgg.tp
      = (evaluateDetectorOutput annot detections threshold).micro.tp ∧
    (evaluateDetectorOutput annot detections threshold).macroAgg.fp
      = (evaluateDetectorOutput annot detections threshold).micro.fp ∧
    (evaluateDetectorOutput annot detections threshold).macroAgg.fn
      = (evaluateDetectorOutput annot detections threshold).micro.fn ∧
    (activeTypesOf (flattenTruth annot) (flattenPredictions detections) ≠ [] →
      (evaluateDetectorOutput annot detections threshold).macroAgg.precision
        = ((activeTypesOf (flattenTruth annot) (flattenPredictions detections)).map
            fun t => (calcMetrics (countsOf (flattenTruth annot)
              (flattenPredictions detections) threshold t)).precision).sum
          / ((activeTypesOf (flattenTruth annot) (flattenPredictions detections)).length : ℚ) ∧
      (evaluateDetectorOutput annot detections threshold).macroAgg.recall'
        = ((activeTypesOf (flattenTruth annot) (flattenPredictions detections)).map
            fun t => (calcMetrics (countsOf (flattenTruth annot)
              (flattenPredictions detections) threshold t)).recall').sum
          / ((activeTypesOf (flattenTruth annot) (flattenPredictions detections)).length : ℚ) ∧
      (evaluateDetectorOutput annot detections threshold).macroAgg.f1
        = ((activeTypesOf (flattenTruth annot) (flattenPredictions detections)).map
            fun t => (calcMetrics (countsOf (flattenTruth annot)
              (flattenPredictions detections) threshold t)).f1).sum
          / ((activeTypesOf (flattenTruth annot) (flattenPredictions detections)).length : ℚ)) := by
  refine ⟨?_, ?_, ?_, ?_, ?_, rfl, rfl, rfl, fun hne => ?_⟩
  · simp [evaluateDetectorOutput, aggregateMetrics, List.length_flatMap,
      countsOf, Function.comp_def]
  · simp [evaluateDetectorOutput, aggregateMetrics, List.length_flatMap,
      countsOf, Function.comp_def]
  · simp [evaluateDetectorOutput, aggregateMetrics, List.length_flatMap,
      countsOf, Function.comp_def]
  · have hmap : ((activeTypesOf (flattenTruth annot) (flattenPredictions detections)).map
        fun t => (countsOf (flattenTruth annot) (flattenPredictions detections) threshold t).tp
          + (countsOf (flattenTruth annot) (flattenPredictions detections) threshold t).fn).sum
        = (flattenTruth annot).length := by
      rw [← sum_truthsOfType_lengths (flattenTruth annot) (flattenPredictions detections)]
      congr 1
      apply List.map_congr_left
      intro t _
      exact greedyMatch_truth_count t (truthsOfType (flattenTruth annot) t)
        (predictionsOfType (flattenPredictions detections) t) threshold
    rw [List.sum_map_add] at hmap
    simpa [evaluateDetectorOutput, aggregateMetrics] using hmap
  · have hmap : ((activeTypesOf (flattenTruth annot) (flattenPredictions detections)).map
        fun t => (countsOf (flattenTruth annot) (flattenPredictions detections) threshold t).tp
          + (countsOf (flattenTruth annot) (flattenPredictions detections) threshold t).fp).sum
        = (flattenPredictions detections).length := by
      rw [← sum_predictionsOfType_lengths (flattenTruth annot) (flattenPredictions detections)]
      congr 1
      apply List.map_congr_left
      intro t _
      exact greedyMatch_prediction_count t (truthsOfType (flattenTruth annot) t)
        (predictionsOfType (flattenPredictions detections) t) threshold
    rw [List.sum_map_add] at hmap
    simpa [evaluateDetectorOutput, aggregateMetrics] using hmap
  · have hlen : (activeTypesOf (flattenTruth annot) (flattenPredictions detections)).length ≠ 0 :=
      fun h => hne (List.length_eq_zero.mp h)
    refine ⟨?_, ?_, ?_⟩ <;>
      simp [evaluateDetectorOutput, hlen]

/-- Witness for claim C10: the macro-mean part instantiated on the
synthetic smoke-test documents, whose active-type list is nonempty. -/
theorem evaluateDetectorOutput_aggregate_invariants_witness :
    activeTypesOf (flattenTruth (some syntheticTruth))
      (flattenPredictions syntheticDetections) ≠ [] ∧
    (evaluateDetectorOutput (some syntheticTruth) syntheticDetections (1/2)).macroAgg.precision
      = ((activeTypesOf (flattenTruth (some syntheticTruth))
          (flattenPredictions syntheticDetections)).map
          fun t => (calcMetrics (countsOf (flattenTruth (some syntheticTruth))
            (flattenPredictions syntheticDetections) (1/2) t)).precision).sum
        / ((activeTypesOf (flattenTruth (some syntheticTruth))
            (flattenPredictions syntheticDetections)).length : ℚ) :=
  ⟨by decide,
   ((evaluateDetectorOutput_aggregate_invariants (some syntheticTruth)
      syntheticDetections (1/2)).2.2.2.2.2.2.2.2 (by decide)).1⟩


/-! ### The runtime raster-heuristics detector

Shallow embedding of `PDFFieldDetector` from
`src/lib/detectors/rasterHeuristics` (re-exported by
`src/lib/pdfFieldDetection`).  Pixel buffers are lists of exact
rationals; a JavaScript out-of-bounds array read yields `undefined`, and
arithmetic on `undefined` yields NaN, so a brightness is modelled as
`Option ℚ` with `none` standing for NaN (every comparison with NaN is
false, as in JS).  `for` loops with positive step are modelled by the
explicit index lists `forLt`/`forLe`. -/

/-- JS array read `data[i]`: `undefined` (`none`) unless `i` is an
integer index inside the array. -/
def jsGet (data : List ℚ) (i : ℚ) : Option ℚ :=
  if i.den = 1 ∧ 0 ≤ i.num then data.get? i.num.toNat else none

/-- `brightness < t` under JS NaN semantics (`NaN < t` is false). -/
def bLt (b : Option ℚ) (t : ℚ) : Bool :=
  match b with
  | none => false
  | some v => decide (v < t)

/-- `brightness > t` under JS NaN semantics. -/
def bGt (b : Option ℚ) (t : ℚ) : Bool :=
  match b with
  | none => false
  | some v => decide (t < v)

/-- JS addition where either side may be NaN. -/
def bAdd (a b : Option ℚ) : Option ℚ :=
  match a, b with
  | some x, some y => some (x + y)
  | _, _ => none

/-- JS `Math.abs`. -/
def qabs (a : ℚ) : ℚ := if a < 0 then -a else a

/-- The index list of `for (v = start; v < stop; v += step)` for a
positive `step`: `start, start+step, …` while `< stop`. -/
def forLt (start step stop : ℚ) : List ℚ :=
  (List.range (⌈(stop - start) / step⌉).toNat).map fun i => start + step * i

/-- The index list of `for (v = start; v ≤ stop; v += step)` for a
positive `step`. -/
def forLe (start step stop : ℚ) : List ℚ :=
  (List.range (⌊(stop - start) / step⌋ + 1).toNat).map fun i => start + step * i

namespace Raster

/-- `DetectionOptions` of the raster-heuristics detector. -/
structure DetectionOptions where
  minTextFieldHeight : ℚ
  maxFieldHeight : ℚ
  minCheckboxSize : ℚ
  maxCheckboxSize : ℚ
  minRadioSize : ℚ
  maxRadioSize : ℚ
  mergeThreshold : ℚ
  confidenceThreshold : ℚ
  deriving DecidableEq, Repr

/-- The constructor defaults of `PDFFieldDetector`. -/
def defaultOptions : DetectionOptions :=
  { minTextFieldHeight := 12
    maxFieldHeight := 200
    minCheckboxSize := 8
    maxCheckboxSize := 20
    minRadioSize := 8
    maxRadioSize := 16
    mergeThreshold := 5
    confidenceThreshold := 0.3 }

/-- The `type` union of `DetectedElement` in `src/types/form.ts`. -/
inductive DetType where
  | text | checkbox | radio | signature | box | line | bracket | circle
  deriving DecidableEq, Repr

/-- A pixel-space rectangle (the `rect` of a `DetectedElement`). -/
structure PixelRect where
  x : ℚ
  y : ℚ
  width : ℚ
  height : ℚ
  deriving DecidableEq, Repr

/-- `DetectedElement` of `src/types/form.ts`. -/
structure DetectedElement where
  type : DetType
  rect : PixelRect
  confidence : ℚ
  deriving DecidableEq, Repr

/-- One entry of the optional `textElements` argument of `detectFields`. -/
structure TextElement where
  text : String
  rect : PixelRect
  deriving DecidableEq, Repr

/-- A horizontal line found by `findHorizontalLines`. -/
structure LineSeg where
  x : ℚ
  y : ℚ
  width : ℚ
  deriving DecidableEq, Repr

/-- `getPixelBrightness` of the raster-heuristics detector: the luminance
`0.299·R + 0.587·G + 0.114·B` with no bounds check — an out-of-range read
returns `undefined` and the result is NaN (`none`). -/
def getPixelBrightness (data : List ℚ) (x y width : ℚ) : Option ℚ :=
  let offset := (y * width + x) * 4
  match jsGet data offset, jsGet data (offset + 1), jsGet data (offset + 2) with
  | some r, some g, some b => some (0.299 * r + 0.587 * g + 0.114 * b)
  | _, _, _ => none

/-- `isLikelyUnderline`: the strip above the candidate line must be
mostly clear. -/
def isLikelyUnderline (data : List ℚ) (x y w imageWidth : ℚ)
    (threshold : ℚ) : Bool :=
  let checkHeight := qmin 20 (y - 5)
  if checkHeight ≤ 0 then false
  else
    let samples := (forLt (y - checkHeight) 1 (y - 2)).flatMap fun checkY =>
      (forLt x 3 (qmin (x + w) imageWidth)).map fun checkX =>
        getPixelBrightness data checkX checkY imageWidth
    let clearPixels : ℚ := (samples.filter fun b => bGt b (threshold + 20)).length
    let totalPixels : ℚ := samples.length
    let clearFrac := if totalPixels > 0 then clearPixels / totalPixels else 0
    decide (clearFrac > 0.55)

/-- The state of the inner scan of `findHorizontalLines`:
`(lineStart, lineLength, darkPixels, lines so far)` (`lineStart = -1`
is the JS sentinel for "no open run"; the unused `totalPixels` counter is
not carried). -/
def rowScanStep (data : List ℚ) (width height threshold y : ℚ)
    (st : ℚ × ℚ × ℚ × List LineSeg) (x : ℚ) : ℚ × ℚ × ℚ × List LineSeg :=
  let lineStart := st.1
  let lineLength := st.2.1
  let darkPixels := st.2.2.1
  let lines := st.2.2.2
  let brightness := getPixelBrightness data x y width
  if bLt brightness threshold then
    let ls := if lineStart = -1 then x else lineStart
    (ls, x - ls + 1, darkPixels + 1, lines)
  else
    let lines' :=
      if lineLength ≥ 40 ∧ darkPixels > lineLength * 0.7 then
        if isLikelyUnderline data lineStart y lineLength width threshold then
          lines ++ [⟨lineStart, y, lineLength⟩]
        else lines
      else lines
    (-1, 0, 0, lines')

/-- One row of `findHorizontalLines`, including the final end-of-row
check. -/
def rowScan (data : List ℚ) (width height threshold y : ℚ) : List LineSeg :=
  let st := (forLt 5 1 (width - 5)).foldl (rowScanStep data width height threshold y)
    (-1, 0, 0, [])
  let lineStart := st.1
  let lineLength := st.2.1
  let darkPixels := st.2.2.1
  let lines := st.2.2.2
  if lineLength ≥ 40 ∧ darkPixels > lineLength * 0.7 then
    if isLikelyUnderline data lineStart y lineLength width threshold then
      lines ++ [⟨lineStart, y, lineLength⟩]
    else lines
  else lines

/-- `findHorizontalLines` of the raster-heuristics detector (every other
row between `10` and `height − 10`). -/
def findHorizontalLines (data : List ℚ) (width height threshold : ℚ) :
    List LineSeg :=
  (forLt 10 2 (height - 10)).flatMap (rowScan data width height threshold)



/-- `calculateTextFieldAreaConfidence`: the fraction of bright pixels in
the sampled candidate area, clamped to `[0, 1]`. -/
def calculateTextFieldAreaConfidence (data : List ℚ)
    (x y w h imageWidth imageHeight : ℚ) : ℚ :=
  let sampleStepX := qmax 1 ((⌊w / 100⌋ : ℤ) : ℚ)
  let sampleStepY := qmax 1 ((⌊h / 20⌋ : ℤ) : ℚ)
  let samples := (forLt y sampleStepY (qmin imageHeight (y + h))).flatMap fun sampleY =>
    (forLt x sampleStepX (qmin imageWidth (x + w))).map fun sampleX =>
      getPixelBrightness data sampleX sampleY imageWidth
  let brightPixels : ℚ := (samples.filter fun b => bGt b 200).length
  let totalPixels : ℚ := samples.length
  if totalPixels = 0 then 0
  else qmax 0 (qmin 1 (brightPixels / totalPixels))

/-- `countDarkIf`: `1` when the pixel is darker than `140`. -/
def countDarkIf (data : List ℚ) (width x y : ℚ) : ℚ :=
  if bLt (getPixelBrightness data x y width) 140 then 1 else 0

/-- `measureBorderDarkness`: fraction of dark pixels on the rectangle
perimeter. -/
def measureBorderDarkness (data : List ℚ) (width x y rectWidth rectHeight : ℚ) : ℚ :=
  let horiz := (forLt x 1 (x + rectWidth)).map fun currX =>
    countDarkIf data width currX y + countDarkIf data width currX (y + rectHeight)
  let vert := (forLt y 1 (y + rectHeight)).map fun currY =>
    countDarkIf data width x currY + countDarkIf data width (x + rectWidth) currY
  let darkPixels := horiz.sum + vert.sum
  let totalPixels : ℚ := 2 * (forLt x 1 (x + rectWidth)).length
    + 2 * (forLt y 1 (y + rectHeight)).length
  if totalPixels > 0 then darkPixels / totalPixels else 0

/-- `measureFillBrightness`: average brightness of the sampled interior
(NaN, i.e. `none`, as soon as a sampled read is out of range). -/
def measureFillBrightness (data : List ℚ) (width x y rectWidth rectHeight : ℚ) :
    Option ℚ :=
  let samples := (forLt (y + 1) 3 (y + rectHeight - 1)).flatMap fun currY =>
    (forLt (x + 1) 3 (x + rectWidth - 1)).map fun currX =>
      getPixelBrightness data currX currY width
  let totalPixels : ℚ := samples.length
  if totalPixels > 0 then
    (samples.foldl bAdd (some 0)).map fun total => total / totalPixels
  else some 0

/-- `detectRectangleAt`: the first candidate box at `(x, y)` with a dark
border and a bright interior. -/
def detectRectangleAt (opts : DetectionOptions) (data : List ℚ)
    (width height x y threshold : ℚ) : Option PixelRect :=
  let maxWidth := qmin (width - x) 300
  let maxHeight := qmin (height - y) 100
  (forLt opts.minTextFieldHeight 5 maxHeight).findSome? fun rectHeight =>
    (forLt opts.minTextFieldHeight 5 maxWidth).findSome? fun rectWidth =>
      let borderBrightness := measureBorderDarkness data width x y rectWidth rectHeight
      let fillBrightness := measureFillBrightness data width x y rectWidth rectHeight
      if decide (borderBrightness > 0.6) && bGt fillBrightness (threshold + 40) then
        some ⟨x, y, rectWidth, rectHeight⟩
      else none

/-- `detectBoxedTextFields`: scan a 3-pixel grid for bordered boxes. -/
def detectBoxedTextFields (opts : DetectionOptions) (data : List ℚ)
    (width height threshold : ℚ) : List DetectedElement :=
  (forLt 0 3 (height - opts.minTextFieldHeight)).flatMap fun y =>
    (forLt 0 3 (width - opts.minTextFieldHeight)).flatMap fun x =>
      match detectRectangleAt opts data width height x y threshold with
      | some rectangle => [⟨.text, rectangle, 0.5⟩]
      | none => []

/-- `detectTextFields`: a text box above each accepted underline, plus
the boxed text fields. -/
def detectTextFields (opts : DetectionOptions) (data : List ℚ)
    (width height : ℚ) : List DetectedElement :=
  let threshold : ℚ := 120
  let horizontalLines := findHorizontalLines data width height threshold
  let lineFields := horizontalLines.flatMap fun line =>
    if line.width < 40 then []
    else
      let fieldHeight := qmax opts.minTextFieldHeight (qmin 25 (height * 0.025))
      let textFieldY := qmax 0 (line.y - fieldHeight - 2)
      if textFieldY ≥ 0 ∧ line.y - textFieldY ≥ fieldHeight then
        let confidence := calculateTextFieldAreaConfidence data line.x textFieldY
          line.width fieldHeight width height
        if confidence > 0.2 then
          [⟨.text, ⟨line.x, textFieldY, line.width, fieldHeight⟩, confidence⟩]
        else []
      else []
  lineFields ++ detectBoxedTextFields opts data width height threshold

/-- `detectSquareAt`: the smallest square size in `[minSize, maxSize]`
whose border is dark enough (the loop breaks at the image edge). -/
def detectSquareAt (data : List ℚ) (width height x y minSize maxSize
    borderThreshold : ℚ) : Option ℚ :=
  ((forLe minSize 1 maxSize).takeWhile fun size =>
      !(decide (x + size ≥ width) || decide (y + size ≥ height))).findSome? fun size =>
    if measureBorderDarkness data width x y size size > borderThreshold then
      some size
    else none

/-- `detectCheckboxes`: grid-scan for small dark-bordered squares (the JS
`if (!size) continue` also skips a zero size). -/
def detectCheckboxes (opts : DetectionOptions) (data : List ℚ)
    (width height : ℚ) : List DetectedElement :=
  (forLt 0 3 (height - opts.maxCheckboxSize)).flatMap fun y =>
    (forLt 0 3 (width - opts.maxCheckboxSize)).flatMap fun x =>
      match detectSquareAt data width height x y opts.minCheckboxSize
          opts.maxCheckboxSize 0.65 with
      | some size => if size = 0 then [] else [⟨.checkbox, ⟨x, y, size, size⟩, 0.7⟩]
      | none => []

/-- Rational stand-ins for the IEEE evaluations of
`Math.cos(2·π·i/12)`, `i = 0 … 11`, in `detectCircleAt`.  The verified
claims do not depend on these constants. -/
def cos12 (i : ℕ) : ℚ :=
  [1, 0.8660254037844386, 0.5, 0, -0.5, -0.8660254037844386, -1,
   -0.8660254037844386, -0.5, 0, 0.5, 0.8660254037844386].getD i 0

/-- Rational stand-ins for the IEEE evaluations of
`Math.sin(2·π·i/12)`, `i = 0 … 11`. -/
def sin12 (i : ℕ) : ℚ :=
  [0, 0.5, 0.8660254037844386, 1, 0.8660254037844386, 0.5, 0, -0.5,
   -0.8660254037844386, -1, -0.8660254037844386, -0.5].getD i 0

/-- `detectCircleAt`: the smallest circle size whose circumference
samples are mostly dark (out-of-range samples are skipped). -/
def detectCircleAt (data : List ℚ) (width height x y minSize maxSize
    borderThreshold : ℚ) : Option ℚ :=
  ((forLe minSize 1 maxSize).takeWhile fun size =>
      !(decide (x + size ≥ width) || decide (y + size ≥ height))).findSome? fun size =>
    let radius := size / 2
    let centerX := x + radius
    let centerY := y + radius
    let samples := (List.range 12).map fun i =>
      (((⌊centerX + radius * cos12 i⌋ : ℤ) : ℚ), ((⌊centerY + radius * sin12 i⌋ : ℤ) : ℚ))
    let valid := samples.filter fun p =>
      !(decide (p.1 < 0) || decide (p.1 ≥ width) || decide (p.2 < 0) || decide (p.2 ≥ height))
    let darkCount : ℚ := (valid.filter fun p =>
      bLt (getPixelBrightness data p.1 p.2 width) 140).length
    let total : ℚ := valid.length
    if total > 0 ∧ darkCount / total > borderThreshold then some size else none

/-- `detectRadioButtons`: grid-scan for circular borders. -/
def detectRadioButtons (opts : DetectionOptions) (data : List ℚ)
    (width height : ℚ) : List DetectedElement :=
  (forLt 0 3 (height - opts.maxRadioSize)).flatMap fun y =>
    (forLt 0 3 (width - opts.maxRadioSize)).flatMap fun x =>
      match detectCircleAt data width height x y opts.minRadioSize
          opts.maxRadioSize 0.6 with
      | some size => if size = 0 then [] else [⟨.radio, ⟨x, y, size, size⟩, 0.6⟩]
      | none => []

/-- `detectWideRectangle`: the first wide, low rectangle at `(x, y)` with
a dark enough border (the inner loop breaks at the image edge). -/
def detectWideRectangle (data : List ℚ) (width height x y minWidth maxWidth
    minHeight maxHeight borderThreshold : ℚ) : Option PixelRect :=
  (forLe minWidth 10 maxWidth).findSome? fun rectWidth =>
    ((forLe minHeight 5 maxHeight).takeWhile fun rectHeight =>
        !(decide (x + rectWidth ≥ width) || decide (y + rectHeight ≥ height))).findSome?
      fun rectHeight =>
        if measureBorderDarkness data width x y rectWidth rectHeight > borderThreshold then
          some ⟨x, y, rectWidth, rectHeight⟩
        else none

/-- `detectSignatureAreas`: wide low rectangles sized relative to the
page. -/
def detectSignatureAreas (opts : DetectionOptions) (data : List ℚ)
    (width height : ℚ) : List DetectedElement :=
  let minWidth := width * 0.2
  let maxWidth := width * 0.8
  let minHeight := qmax (opts.minTextFieldHeight * 1.5) 20
  let maxHeight := qmin (height * 0.06) opts.maxFieldHeight
  (forLt 0 4 (height - maxHeight)).flatMap fun y =>
    (forLt 0 4 (width - maxWidth)).flatMap fun x =>
      match detectWideRectangle data width height x y minWidth maxWidth
          minHeight maxHeight 0.45 with
      | some signature => [⟨.signature, signature, 0.55⟩]
      | none => []

/-- `detectStandaloneLines`: every horizontal line at threshold `100`,
2 pixels tall. -/
def detectStandaloneLines (data : List ℚ) (width height : ℚ) :
    List DetectedElement :=
  (findHorizontalLines data width height 100).map fun line =>
    ⟨.line, ⟨line.x, line.y, line.width, 2⟩, 0.4⟩


/-- `filterByMinimumSize` of the raster-heuristics detector. -/
def filterByMinimumSize (opts : DetectionOptions) (elements : List DetectedElement)
    (pageHeight : ℚ) : List DetectedElement :=
  let minHeight := qmax opts.minTextFieldHeight (pageHeight * 0.01)
  let minWidth := minHeight * 2
  elements.filter fun element =>
    if element.rect.height < minHeight then false
    else if element.rect.width < minWidth ∧ element.type = .text then false
    else true

/-- `calculateOverlapRatio` of the raster-heuristics detector:
intersection over union. -/
def calculateOverlapRatio (rect1 rect2 : PixelRect) : ℚ :=
  let x1 := qmax rect1.x rect2.x
  let y1 := qmax rect1.y rect2.y
  let x2 := qmin (rect1.x + rect1.width) (rect2.x + rect2.width)
  let y2 := qmin (rect1.y + rect1.height) (rect2.y + rect2.height)
  if x2 ≤ x1 ∨ y2 ≤ y1 then 0
  else
    let overlapArea := (x2 - x1) * (y2 - y1)
    let area1 := rect1.width * rect1.height
    let area2 := rect2.width * rect2.height
    let unionArea := area1 + area2 - overlapArea
    if unionArea > 0 then overlapArea / unionArea else 0

/-- `filterTextOverlaps` of the raster-heuristics detector: drop an
element as soon as its overlap ratio with some text element exceeds
`0.3`. -/
def filterTextOverlaps (elements : List DetectedElement)
    (textElements : List TextElement) : List DetectedElement :=
  elements.filter fun element =>
    textElements.all fun textElement =>
      !(decide (calculateOverlapRatio element.rect textElement.rect > 0.3))

/-- `shouldMerge` of the raster-heuristics detector. -/
def shouldMerge (opts : DetectionOptions) (a b : DetectedElement) : Bool :=
  if a.type ≠ b.type then false
  else
    let distanceX := qabs (a.rect.x - (b.rect.x + b.rect.width))
    let distanceY := qabs (a.rect.y - (b.rect.y + b.rect.height))
    let horizontalOverlap := qmin (a.rect.x + a.rect.width) (b.rect.x + b.rect.width)
      - qmax a.rect.x b.rect.x
    let verticalOverlap := qmin (a.rect.y + a.rect.height) (b.rect.y + b.rect.height)
      - qmax a.rect.y b.rect.y
    let closeHorizontally := decide (distanceX < opts.mergeThreshold)
    let closeVertically := decide (distanceY < opts.mergeThreshold)
    let overlappingHorizontally := decide (horizontalOverlap > -opts.mergeThreshold)
    let overlappingVertically := decide (verticalOverlap > -opts.mergeThreshold)
    (closeHorizontally && overlappingVertically) ||
      (closeVertically && overlappingHorizontally)

/-- `mergeRects` of the raster-heuristics detector: the bounding box. -/
def mergeRects (a b : PixelRect) : PixelRect :=
  let x := qmin a.x b.x
  let y := qmin a.y b.y
  let maxX := qmax (a.x + a.width) (b.x + b.width)
  let maxY := qmax (a.y + a.height) (b.y + b.height)
  ⟨x, y, maxX - x, maxY - y⟩

/-- The inner `j` loop of `mergeAdjacentFields`: fold the still-unvisited
later elements into `current`, returning the merged element and the
elements left unvisited (in order). -/
def absorb (opts : DetectionOptions) (current : DetectedElement)
    (rest : List DetectedElement) : DetectedElement × List DetectedElement :=
  rest.foldl
    (fun st candidate =>
      if shouldMerge opts st.1 candidate then
        ({ st.1 with
            rect := mergeRects st.1.rect candidate.rect
            confidence := qmax st.1.confidence candidate.confidence * 0.9 }, st.2)
      else (st.1, st.2 ++ [candidate]))
    (current, [])

lemma absorb_snd_length_le (opts : DetectionOptions) (current : DetectedElement)
    (rest : List DetectedElement) :
    (absorb opts current rest).2.length ≤ rest.length := by
  suffices h : ∀ (l : List DetectedElement) (c : DetectedElement)
      (acc : List DetectedElement),
      ((l.foldl (fun st candidate =>
        if shouldMerge opts st.1 candidate then
          ({ st.1 with
              rect := mergeRects st.1.rect candidate.rect
              confidence := qmax st.1.confidence candidate.confidence * 0.9 }, st.2)
        else (st.1, st.2 ++ [candidate])) (c, acc)).2).length ≤ acc.length + l.length by
    simpa [absorb] using h rest current []
  intro l
  induction l with
  | nil =>
    intro c acc
    simp
  | cons d l ih =>
    intro c acc
    simp only [List.foldl_cons, List.length_cons]
    split
    · refine (ih _ _).trans ?_
      omega
    · refine (ih c (acc ++ [d])).trans ?_
      simp only [List.length_append, List.length_singleton]
      omega

/-- The outer `i` loop of `mergeAdjacentFields`, driven by a fuel
counter so that the kernel can evaluate it; by `absorb_snd_length_le`
the unvisited list shrinks at every step, so fuel `elements.length`
never runs out and the `0, _ :: _` case is unreachable. -/
def mergeGo (opts : DetectionOptions) : ℕ → List DetectedElement → List DetectedElement
  | _, [] => []
  | 0, _ :: _ => []
  | fuel + 1, e :: rest =>
    let st := absorb opts e rest
    st.1 :: mergeGo opts fuel st.2

/-- `mergeAdjacentFields` of the raster-heuristics detector. -/
def mergeAdjacentFields (opts : DetectionOptions)
    (elements : List DetectedElement) : List DetectedElement :=
  mergeGo opts elements.length elements

/-- The body of `detectFields` before the adjacency merge: the five
passes, the size filter and the optional text-overlap filter, all using
the already-adjusted options. -/
def preMergeElements (opts : DetectionOptions) (data : List ℚ)
    (pageWidth pageHeight : ℚ) (textElements : Option (List TextElement)) :
    List DetectedElement :=
  let elements :=
    detectTextFields opts data pageWidth pageHeight ++
    detectCheckboxes opts data pageWidth pageHeight ++
    detectRadioButtons opts data pageWidth pageHeight ++
    detectSignatureAreas opts data pageWidth pageHeight ++
    detectStandaloneLines data pageWidth pageHeight
  let sizeFilteredElements := filterByMinimumSize opts elements pageHeight
  match textElements with
  | some te => filterTextOverlaps sizeFilteredElements te
  | none => sizeFilteredElements

/-- The post-mutation body of `detectFields` up to and including the
adjacency merge (the final confidence filter is applied in
`detectFields`). -/
def detectPipeline (opts : DetectionOptions) (data : List ℚ)
    (pageWidth pageHeight : ℚ) (textElements : Option (List TextElement)) :
    List DetectedElement :=
  mergeAdjacentFields opts (preMergeElements opts data pageWidth pageHeight textElements)

/-- `detectFields` of the raster-heuristics detector.  The source method
first assigns
`this.options.maxFieldHeight = Math.min(this.options.maxFieldHeight, pageHeight * 0.5)`
(mutating the detector's stored options) and then runs on the mutated
options; the embedding returns the detection list together with the
post-call options. -/
def detectFields (opts : DetectionOptions) (data : List ℚ)
    (pageWidth pageHeight : ℚ) (textElements : Option (List TextElement)) :
    List DetectedElement × DetectionOptions :=
  let opts' := { opts with
    maxFieldHeight := qmin opts.maxFieldHeight (pageHeight * 0.5) }
  ((detectPipeline opts' data pageWidth pageHeight textElements).filter
      fun element => decide (element.confidence ≥ opts'.confidenceThreshold),
    opts')

end Raster

/-! ### The legacy field-detection library

Shallow embedding of the pieces of the older `PDFFieldDetector`
(`lib/pdfFieldDetection`, the "PDF Field Detection Library") that the
claims refer to: its bounds-checked `getPixelBrightness` and its
two-threshold text-overlap filter. -/

namespace Legacy

/-- `getPixelBrightness` of the legacy detector: out-of-range coordinates
are guarded (`255`), otherwise the plain RGB average.  `none` can arise
only from a read that JS leaves `undefined` (a fractional index). -/
def getPixelBrightness (data : List ℚ) (x y width : ℚ) : Option ℚ :=
  if x < 0 ∨ y < 0 ∨ x ≥ width then some 255
  else
    let index := (y * width + x) * 4
    if index ≥ (data.length : ℚ) - 2 then some 255
    else
      match jsGet data index, jsGet data (index + 1), jsGet data (index + 2) with
      | some r, some g, some b => some ((r + g + b) / 3)
      | _, _, _ => none

/-- `calculateRectangleOverlapRatio` of the legacy detector:
intersection area over the area of the first rectangle. -/
def calculateRectangleOverlapRatio (rect1 rect2 : Raster.PixelRect) : ℚ :=
  let x1 := qmax rect1.x rect2.x
  let y1 := qmax rect1.y rect2.y
  let x2 := qmin (rect1.x + rect1.width) (rect2.x + rect2.width)
  let y2 := qmin (rect1.y + rect1.height) (rect2.y + rect2.height)
  if x2 ≤ x1 ∨ y2 ≤ y1 then 0
  else
    let overlapArea := (x2 - x1) * (y2 - y1)
    let rect1Area := rect1.width * rect1.height
    if rect1Area > 0 then overlapArea / rect1Area else 0

/-- `isRectangleContainedWithin` of the legacy detector. -/
def isRectangleContainedWithin (rect1 rect2 : Raster.PixelRect) : Bool :=
  decide (rect1.x ≥ rect2.x) && decide (rect1.y ≥ rect2.y) &&
  decide (rect1.x + rect1.width ≤ rect2.x + rect2.width) &&
  decide (rect1.y + rect1.height ≤ rect2.y + rect2.height)

/-- `filterTextOverlaps` of the legacy detector: an element is dropped
when its overlap fraction with some text element exceeds `0.4` while the
element is contained in the text rectangle, or exceeds `0.7`
unconditionally. -/
def filterTextOverlaps (elements : List Raster.DetectedElement)
    (textElements : List Raster.TextElement) : List Raster.DetectedElement :=
  elements.filter fun element =>
    textElements.all fun textEl =>
      let overlapFrac := calculateRectangleOverlapRatio element.rect textEl.rect
      !(decide (overlapFrac > 0.4) &&
        (isRectangleContainedWithin element.rect textEl.rect ||
          decide (overlapFrac > 0.7)))

end Legacy

namespace Raster

lemma qmin_right_idem (a c : ℚ) : qmin (qmin a c) c = qmin a c := by
  unfold qmin
  split_ifs <;> first | rfl | linarith

lemma shouldMerge_conf_irrelevant (a1 a2 a3 a4 a5 a6 a7 c c' : ℚ)
    (x y : DetectedElement) :
    shouldMerge ⟨a1, a2, a3, a4, a5, a6, a7, c⟩ x y
      = shouldMerge ⟨a1, a2, a3, a4, a5, a6, a7, c'⟩ x y := rfl

lemma absorb_conf_irrelevant (a1 a2 a3 a4 a5 a6 a7 c c' : ℚ)
    (cur : DetectedElement) (rest : List DetectedElement) :
    absorb ⟨a1, a2, a3, a4, a5, a6, a7, c⟩ cur rest
      = absorb ⟨a1, a2, a3, a4, a5, a6, a7, c'⟩ cur rest := rfl

lemma mergeGo_conf_irrelevant (a1 a2 a3 a4 a5 a6 a7 c c' : ℚ) :
    ∀ (fuel : ℕ) (l : List DetectedElement),
      mergeGo ⟨a1, a2, a3, a4, a5, a6, a7, c⟩ fuel l
        = mergeGo ⟨a1, a2, a3, a4, a5, a6, a7, c'⟩ fuel l := by
  intro fuel
  induction fuel with
  | zero =>
    intro l
    cases l <;> rfl
  | succ n ih =>
    intro l
    cases l with
    | nil => rfl
    | cons e rest =>
      simp only [mergeGo]
      rw [absorb_conf_irrelevant a1 a2 a3 a4 a5 a6 a7 c c', ih]

lemma preMergeElements_conf_irrelevant (a1 a2 a3 a4 a5 a6 a7 c c' : ℚ)
    (data : List ℚ) (w h : ℚ) (texts : Option (List TextElement)) :
    preMergeElements ⟨a1, a2, a3, a4, a5, a6, a7, c⟩ data w h texts
      = preMergeElements ⟨a1, a2, a3, a4, a5, a6, a7, c'⟩ data w h texts := rfl

/-- No stage of the detection pipeline up to the adjacency merge reads
`confidenceThreshold`: only the final filter in `detectFields` does. -/
lemma detectPipeline_conf_irrelevant (a1 a2 a3 a4 a5 a6 a7 c c' : ℚ)
    (data : List ℚ) (w h : ℚ) (texts : Option (List TextElement)) :
    detectPipeline ⟨a1, a2, a3, a4, a5, a6, a7, c⟩ data w h texts
      = detectPipeline ⟨a1, a2, a3, a4, a5, a6, a7, c'⟩ data w h texts := by
  unfold detectPipeline mergeAdjacentFields
  rw [preMergeElements_conf_irrelevant a1 a2 a3 a4 a5 a6 a7 c c']
  exact mergeGo_conf_irrelevant a1 a2 a3 a4 a5 a6 a7 c c' _ _

/-- Counterexample to claim C7 as stated: `detectFields` persists the
re-derived `maxFieldHeight` into the detector's stored options
(`this.options.maxFieldHeight = Math.min(…)`), so a call on a small page
changes the configured options: `min(200, 0.5 × 3) = 1.5 ≠ 200`. -/
theorem detectFields_mutates_options :
    (detectFields defaultOptions [] 3 3 none).2 ≠ defaultOptions ∧
    (detectFields defaultOptions [] 3 3 none).2.maxFieldHeight = 1.5 := by
  constructor
  · decide
  · decide

/-- Claim C7 (amended): although `detectFields` persists the clamped
`maxFieldHeight` into the detector's options, the clamp is idempotent,
so a second call with identical inputs uses the same effective
`maxFieldHeight` and returns the identical result (and the identical
post-call options). -/
theorem detectFields_second_call_eq (opts : DetectionOptions) (data : List ℚ)
    (w h : ℚ) (texts : Option (List TextElement)) :
    detectFields ((detectFields opts data w h texts).2) data w h texts
      = detectFields opts data w h texts := by
  obtain ⟨a1, a2, a3, a4, a5, a6, a7, a8⟩ := opts
  simp only [detectFields]
  rw [qmin_right_idem]


/-- Claim C9: raising `confidenceThreshold` (all other options equal)
shrinks the detection set: every element returned at the higher
threshold `t2` is also returned at the lower threshold `t1`. -/
theorem detectFields_threshold_monotone (opts : DetectionOptions) (data : List ℚ)
    (w h : ℚ) (texts : Option (List TextElement)) (t1 t2 : ℚ) (h12 : t1 < t2)
    (e : DetectedElement)
    (he : e ∈ (detectFields { opts with confidenceThreshold := t2 } data w h texts).1) :
    e ∈ (detectFields { opts with confidenceThreshold := t1 } data w h texts).1 := by
  obtain ⟨a1, a2, a3, a4, a5, a6, a7, a8⟩ := opts
  simp only [detectFields, List.mem_filter, decide_eq_true_eq, ge_iff_le] at he ⊢
  rw [detectPipeline_conf_irrelevant a1 (qmin a2 (h * 0.5)) a3 a4 a5 a6 a7 t2 t1] at he
  exact ⟨he.1, le_trans (le_of_lt h12) he.2⟩

/-- Custom options for the C9 witness: tiny checkbox bounds so that a
3 × 3 all-black page yields one detection. -/
def witnessOptions : DetectionOptions :=
  { minTextFieldHeight := 1
    maxFieldHeight := 200
    minCheckboxSize := 2
    maxCheckboxSize := 2
    minRadioSize := 3
    maxRadioSize := 3
    mergeThreshold := 5
    confidenceThreshold := 0.3 }

/-- Witness for claim C9: on a 3 × 3 all-black page the detector finds
one checkbox of confidence `0.7`; it survives the threshold `1/5` and,
by the theorem, also the threshold `1/10`. -/
theorem detectFields_threshold_monotone_witness :
    (1/10 : ℚ) < 1/5 ∧
    (⟨.checkbox, ⟨0, 0, 2, 2⟩, 0.7⟩ : DetectedElement) ∈
      (detectFields { witnessOptions with confidenceThreshold := 1/5 }
        (List.replicate 36 0) 3 3 none).1 ∧
    (⟨.checkbox, ⟨0, 0, 2, 2⟩, 0.7⟩ : DetectedElement) ∈
      (detectFields { witnessOptions with confidenceThreshold := 1/10 }
        (List.replicate 36 0) 3 3 none).1 :=
  ⟨by norm_num, by decide,
   detectFields_threshold_monotone witnessOptions (List.replicate 36 0) 3 3 none
     (1/10) (1/5) (by norm_num) _ (by decide)⟩


/-- Counterexample to claim C8 as stated: two same-type elements that
touch (the first one's right edge is the second one's left edge, full
vertical overlap) are returned unmerged when the left element comes
first in the list — `shouldMerge` only measures the distance from the
current element's left edge to the candidate's right edge, and with the
default `mergeThreshold = 5` neither adjacency test fires. -/
theorem mergeAdjacentFields_touching_not_merged :
    mergeAdjacentFields defaultOptions
        [⟨.text, ⟨0, 0, 20, 10⟩, 0.8⟩, ⟨.text, ⟨20, 0, 20, 10⟩, 0.6⟩]
      = [⟨.text, ⟨0, 0, 20, 10⟩, 0.8⟩, ⟨.text, ⟨20, 0, 20, 10⟩, 0.6⟩] ∧
    (0 : ℚ) + 20 = 20 ∧
    (0 : ℚ) < qmin ((0 : ℚ) + 10) ((0 : ℚ) + 10) - qmax (0 : ℚ) 0 := by
  refine ⟨by decide, by norm_num, by decide⟩

/-- Claim C8 (amended): the adjacency merge of the raster-heuristics
detector merges a touching same-type pair into exactly one element whose
rectangle is the bounding box and whose confidence is
`max(c1, c2) × 0.9`, provided the pair appears in the order
[right neighbour, left neighbour] (the second element's right edge
touching the first element's left edge, overlapping vertically) and
`mergeThreshold` is positive; in the opposite order the pair can stay
unmerged (see the counterexample). -/
theorem mergeAdjacentFields_pair_merged (opts : DetectionOptions)
    (a b : DetectedElement) (htype : a.type = b.type)
    (hx : b.rect.x + b.rect.width = a.rect.x)
    (hov : 0 < qmin (a.rect.y + a.rect.height) (b.rect.y + b.rect.height)
      - qmax a.rect.y b.rect.y)
    (ht : 0 < opts.mergeThreshold) :
    mergeAdjacentFields opts [a, b]
      = [{ a with rect := mergeRects a.rect b.rect, confidence := qmax a.confidence b.confidence * 0.9 }] := by
  have hsm : shouldMerge opts a b = true := by
    unfold shouldMerge
    rw [if_neg (by simp [htype])]
    have h1 : qabs (a.rect.x - (b.rect.x + b.rect.width)) < opts.mergeThreshold := by
      rw [hx, sub_self]
      simpa [qabs] using ht
    have h2 : qmin (a.rect.y + a.rect.height) (b.rect.y + b.rect.height)
        - qmax a.rect.y b.rect.y > -opts.mergeThreshold := by linarith
    simp [h1, h2]
  simp [mergeAdjacentFields, mergeGo, absorb, hsm]

/-- Witness for claim C8 (amended): a concrete touching pair in the
order [right, left] merges into its bounding box with confidence
`max(0.8, 0.6) × 0.9 = 0.72`. -/
theorem mergeAdjacentFields_pair_merged_witness :
    mergeAdjacentFields defaultOptions
        [⟨.text, ⟨20, 0, 20, 10⟩, 0.8⟩, ⟨.text, ⟨0, 0, 20, 10⟩, 0.6⟩]
      = [⟨.text, ⟨0, 0, 40, 10⟩, 0.72⟩] :=
  (mergeAdjacentFields_pair_merged defaultOptions
    ⟨.text, ⟨20, 0, 20, 10⟩, 0.8⟩ ⟨.text, ⟨0, 0, 20, 10⟩, 0.6⟩
    (by decide) (by decide) (by decide) (by decide)).trans (by decide)

end Raster

/-- Counterexample to claim C5 as stated: the runtime raster-heuristics
text-overlap filter computes intersection over union and drops a
detection already at ratio `> 0.3`, so it drops a detection whose
overlap fraction `intersection / detection-area` is exactly `0.4` —
which the claim says must be kept. -/
theorem raster_filterTextOverlaps_drops_low_overlap :
    Raster.filterTextOverlaps [⟨.text, ⟨0, 0, 10, 10⟩, 0.5⟩]
        [⟨"label", ⟨0, 0, 10, 4⟩⟩] = [] ∧
    Legacy.calculateRectangleOverlapRatio ⟨0, 0, 10, 10⟩ ⟨0, 0, 10, 4⟩ ≤ 0.4 := by
  refine ⟨by decide, by decide⟩

/-- Claim C5 (amended): the legacy detector's text-overlap filter keeps a
detection exactly when no known text box gives it an overlap fraction
(`intersection-area / detection-area`) above `0.4` with containment, nor
above `0.7` outright; in particular a detection whose overlap with every
text box is at most `0.4` is kept.  (The runtime raster-heuristics
filter instead drops on intersection-over-union `> 0.3` — see the
counterexample.) -/
theorem legacy_filterTextOverlaps_spec (elements : List Raster.DetectedElement)
    (textElements : List Raster.TextElement) (e : Raster.DetectedElement) :
    (e ∈ Legacy.filterTextOverlaps elements textElements ↔
      e ∈ elements ∧ ∀ t ∈ textElements,
        ¬((Legacy.calculateRectangleOverlapRatio e.rect t.rect > 0.4 ∧
            Legacy.isRectangleContainedWithin e.rect t.rect = true) ∨
          Legacy.calculateRectangleOverlapRatio e.rect t.rect > 0.7)) ∧
    ((∀ t ∈ textElements,
        Legacy.calculateRectangleOverlapRatio e.rect t.rect ≤ 0.4) →
      e ∈ elements → e ∈ Legacy.filterTextOverlaps elements textElements) := by
  have hiff : e ∈ Legacy.filterTextOverlaps elements textElements ↔
      e ∈ elements ∧ ∀ t ∈ textElements,
        ¬((Legacy.calculateRectangleOverlapRatio e.rect t.rect > 0.4 ∧
            Legacy.isRectangleContainedWithin e.rect t.rect = true) ∨
          Legacy.calculateRectangleOverlapRatio e.rect t.rect > 0.7) := by
    simp only [Legacy.filterTextOverlaps, List.mem_filter, List.all_eq_true,
      Bool.not_eq_true', Bool.and_eq_false_iff, Bool.or_eq_false_iff,
      decide_eq_false_iff_not, Bool.not_eq_true]
    constructor
    · rintro ⟨h1, h2⟩
      refine ⟨h1, fun t ht => ?_⟩
      have := h2 t ht
      rintro (⟨hr, hc⟩ | hr)
      · rcases this with h | ⟨h, _⟩
        · exact h hr
        · rw [hc] at h
          cases h
      · rcases this with h | ⟨_, h⟩
        · exact h (by linarith)
        · exact h hr
    · rintro ⟨h1, h2⟩
      refine ⟨h1, fun t ht => ?_⟩
      have := h2 t ht
      push_neg at this
      by_cases hr : Legacy.calculateRectangleOverlapRatio e.rect t.rect > 0.4
      · right
        refine ⟨?_, not_lt.mpr this.2⟩
        have hc := this.1 hr
        simpa using hc
      · left
        exact hr
  refine ⟨hiff, fun hle hmem => hiff.mpr ⟨hmem, fun t ht => ?_⟩⟩
  have := hle t ht
  rintro (⟨hr, _⟩ | hr) <;> linarith

/-- Witness for claim C5 (amended): a detection whose overlap fraction
with the only text box is exactly `0.4` is kept by the legacy filter. -/
theorem legacy_filterTextOverlaps_spec_witness :
    (⟨.text, ⟨0, 0, 10, 10⟩, 0.5⟩ : Raster.DetectedElement) ∈
      Legacy.filterTextOverlaps [⟨.text, ⟨0, 0, 10, 10⟩, 0.5⟩]
        [⟨"label", ⟨0, 0, 10, 4⟩⟩] :=
  (legacy_filterTextOverlaps_spec [⟨.text, ⟨0, 0, 10, 10⟩, 0.5⟩]
    [⟨"label", ⟨0, 0, 10, 4⟩⟩] ⟨.text, ⟨0, 0, 10, 10⟩, 0.5⟩).2
    (by decide) (by decide)


/-- Counterexample to claim C6 as stated: the runtime raster-heuristics
`getPixelBrightness` performs no bounds check, so on a 1 × 1 image
(buffer length exactly `1·1·4`) the out-of-range coordinate `(1, 0)`
reads `undefined` and produces NaN (`none`), not the neutral `255`. -/
theorem raster_getPixelBrightness_oob_nan :
    Raster.getPixelBrightness [255, 255, 255, 255] 1 0 1 = none ∧
    ([255, 255, 255, 255] : List ℚ).length = 1 * 1 * 4 ∧ (1 : ℚ) ≥ 1 := by
  refine ⟨by decide, by decide, le_refl 1⟩

/-- Claim C6 (amended): the legacy detector's `getPixelBrightness`
returns the neutral white brightness `255` whenever the integer
coordinate `(x, y)` is out of range — negative, at or beyond the row
width, or addressing bytes beyond the buffer — and on every integer
coordinate it is total (never NaN).  (The runtime raster-heuristics
version has no such guard — see the counterexample.) -/
theorem legacy_getPixelBrightness_safe :
    (∀ (data : List ℚ) (x y width : ℤ),
      ((x : ℚ) < 0 ∨ (y : ℚ) < 0 ∨ (x : ℚ) ≥ (width : ℚ) ∨
        ((y : ℚ) * (width : ℚ) + (x : ℚ)) * 4 ≥ (data.length : ℚ) - 2) →
      Legacy.getPixelBrightness data (x : ℚ) (y : ℚ) (width : ℚ) = some 255) ∧
    (∀ (data : List ℚ) (x y width : ℤ),
      (Legacy.getPixelBrightness data (x : ℚ) (y : ℚ) (width : ℚ)).isSome = true) := by
  constructor
  · intro data x y width h
    by_cases hg : (x : ℚ) < 0 ∨ (y : ℚ) < 0 ∨ (x : ℚ) ≥ (width : ℚ)
    · simp only [Legacy.getPixelBrightness, if_pos hg]
    · have hidx : ((y : ℚ) * (width : ℚ) + (x : ℚ)) * 4 ≥ (data.length : ℚ) - 2 := by
        rcases h with h | h | h | h
        · exact absurd (Or.inl h) hg
        · exact absurd (Or.inr (Or.inl h)) hg
        · exact absurd (Or.inr (Or.inr h)) hg
        · exact h
      simp only [Legacy.getPixelBrightness, if_neg hg, if_pos hidx]
  · intro data x y width
    by_cases hg : (x : ℚ) < 0 ∨ (y : ℚ) < 0 ∨ (x : ℚ) ≥ (width : ℚ)
    · simp only [Legacy.getPixelBrightness, if_pos hg, Option.isSome_some]
    · by_cases hidx : ((y : ℚ) * (width : ℚ) + (x : ℚ)) * 4 ≥ (data.length : ℚ) - 2
      · simp only [Legacy.getPixelBrightness, if_neg hg, if_pos hidx, Option.isSome_some]
      · push_neg at hidx
        have hg' := hg
        push_neg at hg'
        obtain ⟨hx0, hy0, hxw⟩ := hg'
        have hx0' : 0 ≤ x := by exact_mod_cast hx0
        have hy0' : 0 ≤ y := by exact_mod_cast hy0
        have hxw' : x < width := by exact_mod_cast hxw
        set n : ℤ := (y * width + x) * 4 with hn
        have hcast : ((y : ℚ) * (width : ℚ) + (x : ℚ)) * 4 = ((n : ℤ) : ℚ) := by
          rw [hn]
          push_cast
          ring
        have hn0 : 0 ≤ n := by
          have hw0 : 0 < width := lt_of_le_of_lt hx0' hxw'
          have hyw : 0 ≤ y * width := mul_nonneg hy0' (le_of_lt hw0)
          nlinarith
        have hnlen : (n : ℚ) < (data.length : ℚ) - 2 := by
          rw [← hcast]
          exact hidx
        have hnlen' : n + 2 < (data.length : ℤ) := by
          have h3 : (n : ℚ) + 2 < (data.length : ℚ) := by linarith
          exact_mod_cast h3
        have hget : ∀ k : ℤ, 0 ≤ k → k < (data.length : ℤ) →
            ∃ v, jsGet data ((k : ℤ) : ℚ) = some v := by
          intro k hk0 hklen
          have hlt : k.toNat < data.length := by omega
          refine ⟨data.get ⟨k.toNat, hlt⟩, ?_⟩
          have hden : (((k : ℤ) : ℚ)).den = 1 := Rat.den_intCast k
          have hnum : (((k : ℤ) : ℚ)).num = k := Rat.num_intCast k
          rw [jsGet, if_pos ⟨hden, by rw [hnum]; exact hk0⟩, hnum]
          exact List.get?_eq_get hlt
        obtain ⟨r, hr⟩ := hget n hn0 (by omega)
        obtain ⟨g, hgv⟩ := hget (n + 1) (by omega) (by omega)
        obtain ⟨b, hb⟩ := hget (n + 2) (by omega) (by omega)
        have h1 : ((n : ℤ) : ℚ) + 1 = (((n + 1 : ℤ)) : ℚ) := by push_cast; ring
        have h2 : ((n : ℤ) : ℚ) + 2 = (((n + 2 : ℤ)) : ℚ) := by push_cast; ring
        have hnotge : ¬(((y : ℚ) * (width : ℚ) + (x : ℚ)) * 4 ≥ (data.length : ℚ) - 2) :=
          not_le.mpr hidx
        simp only [Legacy.getPixelBrightness, if_neg hg, if_neg hnotge, hcast, h1, h2,
          hr, hgv, hb, Option.isSome_some]
        rw [if_neg (not_le.mpr hnlen)]
        rfl


/-- Witness for claim C6 (amended): on a 1 × 1 black image the legacy
read at the out-of-range coordinate `(5, 0)` yields `255`, and the
in-range read at `(0, 0)` is a numeric value. -/
theorem legacy_getPixelBrightness_safe_witness :
    Legacy.getPixelBrightness [0, 0, 0, 0] ((5 : ℤ) : ℚ) ((0 : ℤ) : ℚ) ((1 : ℤ) : ℚ)
      = some 255 ∧
    (Legacy.getPixelBrightness [0, 0, 0, 0] ((0 : ℤ) : ℚ) ((0 : ℤ) : ℚ)
      ((1 : ℤ) : ℚ)).isSome = true :=
  ⟨legacy_getPixelBrightness_safe.1 [0, 0, 0, 0] 5 0 1
     (Or.inr (Or.inr (Or.inl (by norm_num)))),
   legacy_getPixelBrightness_safe.2 [0, 0, 0, 0] 0 0 1⟩

end Ev
